import Mathlib

/-!
Verification of the block codec and identity layer of the gowaves node
(pkg/proto/block.go): block identifiers, the version-dispatched binary and
protobuf header/block codecs, challenged-header recovery, signing payloads
and signature verification, transaction-root computation and checking, and
block construction.

Modelling conventions.  Machine byte strings are `List Nat` with each byte in
the range 0..255; fixed-width machine integers are `Nat` (unsigned) or `Int`
(signed) with explicit reductions modulo 2 ^ w where the Go code truncates.
Cryptographic primitives (hashing, signature verification, Merkle trees) and
the per-transaction codec live outside the verified sources and are treated,
as the specification directs, as black-box capabilities: theorems universally
quantify over them.  Fallible Go functions become `Except`-valued functions;
the panic/recover boundary of the binary decoders becomes an explicit fault
value that the decoder wrapper converts into the generic invalid-data-size
error.
-/

namespace Gowaves

/-- A byte, 0..255. -/
abbrev Byte := Nat

/-- A byte string. -/
abbrev Bytes := List Nat

/-- The chain scheme (address scheme byte). -/
abbrev Scheme := Nat

def signatureSize : Nat := 64
def digestSize : Nat := 32
def publicKeySize : Nat := 32

/-- The zero value of a 64-byte crypto signature array. -/
def zeroSignature : Bytes := List.replicate 64 0

/-- The zero value of a 32-byte crypto digest array. -/
def zeroDigest : Bytes := List.replicate 32 0

/-- Big-endian encoding of `x` into `n` bytes, truncating modulo 256 ^ n. -/
def beBytes : Nat → Nat → Bytes
  | 0, _ => []
  | n + 1, x => beBytes n (x / 256) ++ [x % 256]

/-- Big-endian value of a byte string. -/
def beVal (bs : Bytes) : Nat := bs.foldl (fun a b => a * 256 + b) 0

/-- Interpretation of an unsigned 64-bit value as a signed int64. -/
def i64OfU64 (n : Nat) : Int :=
  if n < 2 ^ 63 then (n : Int) else (n : Int) - 2 ^ 64

/-- Conversion of a signed int64 to its unsigned 64-bit representation. -/
def u64OfI64 (x : Int) : Nat := (x % (2 ^ 64 : Int)).toNat

/-- Go conversion uint32(int16 x): two-complement widening of an int16. -/
def u32OfI16 (x : Int) : Nat := (x % (2 ^ 32 : Int)).toNat

/-- Go conversion uint16(int16 x). -/
def u16OfI16 (x : Int) : Nat := (x % (2 ^ 16 : Int)).toNat

/-- Recover an int16 from its low 16 unsigned bits. -/
def i16OfU16 (n : Nat) : Int :=
  if n % 2 ^ 16 < 2 ^ 15 then ((n % 2 ^ 16 : Nat) : Int)
  else ((n % 2 ^ 16 : Nat) : Int) - 2 ^ 16

/-! ### Block versions -/

def GenesisBlockVersion : Nat := 1
def PlainBlockVersion : Nat := 2
def NgBlockVersion : Nat := 3
def RewardBlockVersion : Nat := 4
def ProtobufBlockVersion : Nat := 5

/-! ### BlockID -/

/-- The discriminant of a BlockID: the Go `idType` field, whose zero value
(here `undefined`) marks an uninitialized BlockID. -/
inductive BlockIDType
  | undefined
  | signatureID
  | digestID
  deriving DecidableEq

/-- The Go BlockID struct: a 64-byte signature field, a 32-byte digest field
and a type discriminant.  The zero value has zero arrays and an undefined
type. -/
structure BlockID where
  sig : Bytes
  dig : Bytes
  idType : BlockIDType
  deriving DecidableEq

/-- The zero value of the Go BlockID struct. -/
def BlockID.zero : BlockID := ⟨zeroSignature, zeroDigest, .undefined⟩

def NewBlockIDFromSignature (s : Bytes) : BlockID := ⟨s, zeroDigest, .signatureID⟩

def NewBlockIDFromDigest (d : Bytes) : BlockID := ⟨zeroSignature, d, .digestID⟩

def NewBlockIDFromBytes (data : Bytes) : Except String BlockID :=
  if data.length = signatureSize then .ok (NewBlockIDFromSignature data)
  else if data.length = digestSize then .ok (NewBlockIDFromDigest data)
  else .error "invalid data size for BlockID"

/-- BlockID.IsValid: versions at or above Protobuf require the digest
variant, earlier versions the signature variant. -/
def BlockID.IsValid (id : BlockID) (version : Nat) : Bool :=
  if version ≥ ProtobufBlockVersion then id.idType == .digestID
  else id.idType == .signatureID

/-- BlockID.Bytes: the raw bytes of the set variant, empty when the BlockID
is uninitialized. -/
def BlockID.bytes (id : BlockID) : Bytes :=
  match id.idType with
  | .signatureID => id.sig
  | .digestID => id.dig
  | .undefined => []

/-- Structural wellformedness of a BlockID value as produced by its
constructors: the active variant has its exact size and the other field
keeps its zero value.  An undefined BlockID is not wellformed. -/
def BlockID.wfb (id : BlockID) : Bool :=
  match id.idType with
  | .signatureID => id.sig.length == 64 && id.dig == zeroDigest
  | .digestID => id.dig.length == 32 && id.sig == zeroSignature
  | .undefined => false

/-! ### Data model -/

/-- NxtConsensus: base target and generation signature. -/
structure NxtConsensus where
  BaseTarget : Nat
  GenSignature : Bytes
  deriving DecidableEq

/-- NxtConsensus.BinarySize. -/
def NxtConsensus.BinarySize (nc : NxtConsensus) : Nat := 8 + nc.GenSignature.length

/-- ChallengedHeader: the header as originally proposed before a challenge
replaced the proposer. -/
structure ChallengedHeader where
  Timestamp : Nat
  nxt : NxtConsensus
  Features : List Int
  GeneratorPublicKey : Bytes
  RewardVote : Int
  StateHash : Bytes
  BlockSignature : Bytes
  deriving DecidableEq

/-- BlockHeader: block meta-information without transactions.  The embedded
NxtConsensus of the Go struct is the `nxt` field; `stateHash` and
`challengedHeader` model the nil-able pointer fields. -/
structure BlockHeader where
  Version : Nat
  Timestamp : Nat
  Parent : BlockID
  FeaturesCount : Nat
  Features : List Int
  RewardVote : Int
  ConsensusBlockLength : Nat
  nxt : NxtConsensus
  TransactionBlockLength : Nat
  TransactionCount : Nat
  GeneratorPublicKey : Bytes
  BlockSignature : Bytes
  TransactionsRoot : Bytes
  stateHash : Option Bytes
  challengedHeader : Option ChallengedHeader
  ID : BlockID
  deriving DecidableEq

/-- A transaction is consumed as a black box: it is identified with its
canonical binary encoding, as the specification treats the transaction type
system as an external capability. -/
abbrev Transaction := Bytes

/-- Block: header plus ordered transaction list. -/
structure Block where
  header : BlockHeader
  Transactions : List Transaction
  deriving DecidableEq

/-- BlockHeader.GetChallengedHeader: value and presence flag. -/
def BlockHeader.GetChallengedHeader (b : BlockHeader) : ChallengedHeader × Bool :=
  match b.challengedHeader with
  | some ch => (ch, true)
  | none => (⟨0, ⟨0, []⟩, [], [], 0, [], []⟩, false)

/-- BlockHeader.GetStateHash: value and presence flag. -/
def BlockHeader.GetStateHash (b : BlockHeader) : Bytes × Bool :=
  match b.stateHash with
  | some sh => (sh, true)
  | none => ([], false)

/-- BlockHeader.origHeader: recover the effective original header of a
challenged block.  A pure value transformation: the input header is not
modified, a fresh header value is returned together with a flag telling
whether a challenge was present. -/
def BlockHeader.origHeader (b : BlockHeader) : BlockHeader × Bool :=
  match b.challengedHeader with
  | none => (b, false)
  | some ch =>
      ({ b with
          challengedHeader := none
          Timestamp := ch.Timestamp
          nxt := ch.nxt
          Features := ch.Features
          GeneratorPublicKey := ch.GeneratorPublicKey
          RewardVote := ch.RewardVote
          stateHash := some ch.StateHash
          BlockSignature := ch.BlockSignature }, true)

/-! ### Protobuf header message and its deterministic encoding -/

/-- int16SliceToUint32: Go widening of each int16 feature vote to uint32. -/
def int16SliceToUint32 (ins : List Int) : List Nat := ins.map u32OfI16

/-- The generated protobuf challenged-header message
(g.Block_Header_ChallengedHeader), fields as built by
ChallengedHeader.ToProtobuf. -/
structure PBChallengedHeader where
  BaseTarget : Nat
  GenerationSignature : Bytes
  FeatureVotes : List Nat
  Timestamp : Nat
  Generator : Bytes
  RewardVote : Int
  StateHash : Bytes
  HeaderSignature : Bytes
  deriving DecidableEq

/-- ChallengedHeader.ToProtobuf. -/
def ChallengedHeader.ToProtobuf (ch : ChallengedHeader) : PBChallengedHeader :=
  { BaseTarget := ch.nxt.BaseTarget
    GenerationSignature := ch.nxt.GenSignature
    FeatureVotes := int16SliceToUint32 ch.Features
    Timestamp := ch.Timestamp
    Generator := ch.GeneratorPublicKey
    RewardVote := ch.RewardVote
    StateHash := ch.StateHash
    HeaderSignature := ch.BlockSignature }

/-- The generated protobuf header message (g.Block_Header), fields as built
by BlockHeader.HeaderToProtobufHeader. -/
structure PBHeader where
  ChainId : Nat
  Reference : Bytes
  BaseTarget : Nat
  GenerationSignature : Bytes
  FeatureVotes : List Nat
  Timestamp : Nat
  Version : Nat
  Generator : Bytes
  RewardVote : Int
  TransactionsRoot : Bytes
  StateHash : Bytes
  challengedHeader : Option PBChallengedHeader
  deriving DecidableEq

/-- BlockHeader.HeaderToProtobufHeader: build the protobuf header message
from the header fields (the state hash maps to its bytes or nil, the
challenged header to an optional submessage). -/
def BlockHeader.HeaderToProtobufHeader (scheme : Scheme) (b : BlockHeader) : PBHeader :=
  { ChainId := scheme
    Reference := b.Parent.bytes
    BaseTarget := b.nxt.BaseTarget
    GenerationSignature := b.nxt.GenSignature
    FeatureVotes := int16SliceToUint32 b.Features
    Timestamp := b.Timestamp
    Version := b.Version
    Generator := b.GeneratorPublicKey
    RewardVote := b.RewardVote
    TransactionsRoot := b.TransactionsRoot
    StateHash := (b.GetStateHash).1
    challengedHeader :=
      match b.challengedHeader with
      | some ch => some ch.ToProtobuf
      | none => none }

/-- A length-prefixed byte field: 4 bytes of big-endian length then the
content. -/
def lenPref (b : Bytes) : Bytes := beBytes 4 b.length ++ b

/-- Modelled from the spec: MarshalToProtobufDeterministic over the generated
challenged-header message is generated protobuf code that is not under src.
It is modelled as a concrete deterministic self-delimiting encoding
serializing the message fields in declaration order, variable-length fields
length-prefixed. -/
def pbEncodeCH (ch : PBChallengedHeader) : Bytes :=
  beBytes 8 ch.BaseTarget ++ lenPref ch.GenerationSignature ++
  beBytes 4 ch.FeatureVotes.length ++ (ch.FeatureVotes.map (beBytes 4)).flatten ++
  beBytes 8 ch.Timestamp ++ lenPref ch.Generator ++
  beBytes 8 (u64OfI64 ch.RewardVote) ++ lenPref ch.StateHash ++
  lenPref ch.HeaderSignature

/-- Modelled from the spec: encoding of the optional challenged-header
submessage, a presence byte then the submessage when present. -/
def pbEncodeChOpt : Option PBChallengedHeader → Bytes
  | none => [0]
  | some c => [1] ++ pbEncodeCH c

/-- Modelled from the spec: MarshalToProtobufDeterministic over the generated
header message (g.Block_Header) is generated protobuf code that is not under
src.  Modelled as a concrete deterministic self-delimiting encoding: fields
in declaration order, variable-length fields length-prefixed, the optional
challenged-header submessage preceded by a presence byte.  Determinism — two
equal messages always encode to identical bytes — holds by construction, as
the spec requires. -/
def pbEncodeHeader (h : PBHeader) : Bytes :=
  beBytes 4 h.ChainId ++ lenPref h.Reference ++ beBytes 8 h.BaseTarget ++
  lenPref h.GenerationSignature ++
  beBytes 4 h.FeatureVotes.length ++ (h.FeatureVotes.map (beBytes 4)).flatten ++
  beBytes 8 h.Timestamp ++ beBytes 4 h.Version ++ lenPref h.Generator ++
  beBytes 8 (u64OfI64 h.RewardVote) ++ lenPref h.TransactionsRoot ++
  lenPref h.StateHash ++
  pbEncodeChOpt h.challengedHeader

/-- BlockHeader.MarshalHeaderToProtobufWithoutSignature: the protobuf header
encoded without its signature field; this is both the signing payload and
the hashing payload of the block ID for versions at or above Protobuf. -/
def BlockHeader.MarshalHeaderToProtobufWithoutSignature
    (scheme : Scheme) (b : BlockHeader) : Bytes :=
  pbEncodeHeader (b.HeaderToProtobufHeader scheme)

/-! ### Block-ID derivation -/

/-- The BlockID value assigned by BlockHeader.GenerateBlockID: the signature
variant wrapping the block signature below the Protobuf version, the digest
variant wrapping the fast hash of the protobuf header-without-signature
bytes from the Protobuf version on.  `fastHash` is the external crypto
capability. -/
def BlockHeader.blockIDValue (fastHash : Bytes → Bytes) (scheme : Scheme)
    (b : BlockHeader) : BlockID :=
  if b.Version < ProtobufBlockVersion then NewBlockIDFromSignature b.BlockSignature
  else NewBlockIDFromDigest (fastHash (b.MarshalHeaderToProtobufWithoutSignature scheme))

/-- BlockHeader.GenerateBlockID: store the derived ID in the header. -/
def BlockHeader.GenerateBlockID (fastHash : Bytes → Bytes) (scheme : Scheme)
    (b : BlockHeader) : BlockHeader :=
  { b with ID := b.blockIDValue fastHash scheme }

/-- BlockHeader.BlockID: accessor returning the signature-variant ID for
versions below Protobuf (ignoring the cached ID field) and the cached ID
field as-is from the Protobuf version on. -/
def BlockHeader.BlockID (b : BlockHeader) : BlockID :=
  if b.Version < ProtobufBlockVersion then NewBlockIDFromSignature b.BlockSignature
  else b.ID

/-! ### Features binary codec -/

/-- featuresToBinary: each int16 feature as two big-endian bytes. -/
def featuresToBinary (fs : List Int) : Bytes :=
  (fs.map (fun f => beBytes 2 (u16OfI16 f))).flatten

/-- featuresFromBinary: read consecutive big-endian int16 values, ignoring a
trailing odd byte (binary.Read fills exactly length-div-2 values). -/
def featuresFromBinary : Bytes → List Int
  | b0 :: b1 :: rest => i16OfU16 (b0 * 256 + b1) :: featuresFromBinary rest
  | _ => []

/-! ### Transactions collection codec -/

/-- Transactions.BinarySize: four length bytes plus the encoding size, summed
over the collection. -/
def transactionsBinarySize (txs : List Transaction) : Nat :=
  (txs.map (fun t => 4 + t.length)).sum

/-- Transactions.WriteToBinary output: for each transaction in list order a
4-byte big-endian length then the transaction bytes (the length is the Go
uint32 conversion, hence truncated modulo 2 ^ 32). -/
def transactionsToBinary (txs : List Transaction) : Bytes :=
  (txs.map (fun t => beBytes 4 t.length ++ t)).flatten

/-- Modelled from the spec: BytesToTransactions (the transaction-collection
decoder behind NewTransactionsFromBytes) is repository code that is not
under src.  Per the spec the binary form is a sequence of entries, each a
4-byte big-endian length followed by the transaction bytes, and decoding
stops when the declared number of entries has been consumed. -/
def bytesToTransactions : Nat → Bytes → Except String (List Transaction)
  | 0, _ => .ok []
  | n + 1, data =>
      if 4 ≤ data.length then
        let sz := beVal (data.take 4)
        if 4 + sz ≤ data.length then
          match bytesToTransactions n (data.drop (4 + sz)) with
          | .ok rest => .ok ((data.drop 4).take sz :: rest)
          | .error e => .error e
        else .error "invalid transaction size"
      else .error "invalid data size for transactions"

/-! ### Binary block marshalling -/

/-- Block.WriteToWithoutSignature: the pre-signature binary encoding of a
block, defined only below the Protobuf version.  The generation signature is
written raw (its stored length), the transaction count as four bytes from
the Ng version on and as a single byte before. -/
def Block.WriteToWithoutSignature (scheme : Scheme) (b : Block) : Except String Bytes :=
  if b.header.Version ≥ ProtobufBlockVersion then
    .error "binary format is not defined for Block versions > 4"
  else if b.header.Parent.bytes.length ≠ signatureSize then
    .error "bad parent length for non-protobuf block"
  else
    .ok ([b.header.Version % 256] ++ beBytes 8 b.header.Timestamp ++
      b.header.Parent.bytes ++ beBytes 4 b.header.ConsensusBlockLength ++
      beBytes 8 b.header.nxt.BaseTarget ++ b.header.nxt.GenSignature ++
      beBytes 4 b.header.TransactionBlockLength ++
      (if b.header.Version ≥ NgBlockVersion then beBytes 4 b.header.TransactionCount
       else [b.header.TransactionCount % 256]) ++
      (transactionsToBinary b.Transactions ++
      ((if b.header.Version ≥ NgBlockVersion then
         beBytes 4 b.header.FeaturesCount ++ featuresToBinary b.header.Features ++
         (if b.header.Version ≥ RewardBlockVersion then
            beBytes 8 (u64OfI64 b.header.RewardVote)
          else [])
       else []) ++
      b.header.GeneratorPublicKey)))

/-- Block.MarshalBinary: the pre-signature encoding followed by the 64-byte
block signature. -/
def Block.MarshalBinary (scheme : Scheme) (b : Block) : Except String Bytes :=
  match b.WriteToWithoutSignature scheme with
  | .error e => .error e
  | .ok bb => .ok (bb ++ b.header.BlockSignature)

/-! ### Binary block unmarshalling (fault-monad embedding) -/

/-- Decoder failure: `fault` models a Go panic raised by an out-of-range
slice access inside the decoder; `msg` models an ordinary returned error. -/
inductive DErr
  | fault
  | msg (s : String)
  deriving DecidableEq

/-- Go slice expression data[a:b]: panics (fault) unless a ≤ b ≤ len. -/
def sliceE (data : Bytes) (a b : Nat) : Except DErr Bytes :=
  if a ≤ b ∧ b ≤ data.length then .ok ((data.drop a).take (b - a)) else .error .fault

/-- Go index expression data[i]: panics (fault) unless i < len. -/
def indexE (data : Bytes) (i : Nat) : Except DErr Nat :=
  if h : i < data.length then .ok (data.get ⟨i, h⟩) else .error .fault

/-- Explicit bind for `Except`, kept as a definition so decoder proofs can
rewrite one step at a time. -/
def ebind {ε α β : Type} (x : Except ε α) (f : α → Except ε β) : Except ε β :=
  match x with
  | .ok a => f a
  | .error e => .error e

/-- Lift an ordinary error into the decoder error type. -/
def liftMsg {α : Type} : Except String α → Except DErr α
  | .ok a => .ok a
  | .error s => .error (.msg s)

/-- The recover boundary of the binary decoders: a panic escaping the
decoder body is converted into the generic invalid-data-size error. -/
def sanitize {α : Type} : Except DErr α → Except DErr α
  | .error .fault => .error (.msg "invalid data size")
  | x => x

/-- Block.UnmarshalBinary body (before the recover wrapper): fixed-offset
slicing with Go uint32 arithmetic on the transaction-block-length derived
offsets, then transactions, features, reward vote, generator key, signature,
and block-ID regeneration from the decoded content. -/
def Block.UnmarshalBinaryCore (scheme : Scheme) (data : Bytes) : Except DErr Block :=
  ebind (indexE data 0) fun v =>
  if v ≥ ProtobufBlockVersion then
    .error (.msg "binary format is not defined for Block versions > 4")
  else
  ebind (sliceE data 1 9) fun tsB =>
  ebind (sliceE data 9 73) fun parentBytes =>
  ebind (liftMsg (NewBlockIDFromBytes parentBytes)) fun parent =>
  ebind (sliceE data 73 77) fun cblB =>
  ebind (sliceE data 77 85) fun btB =>
  ebind (sliceE data 85 117) fun genSig =>
  ebind (sliceE data 117 121) fun tblB =>
  let tbl := beVal tblB
  if NgBlockVersion ≤ v then
    if tbl < 4 then .error (.msg "TransactionBlockLength is too small")
    else
    ebind (sliceE data 121 125) fun cntB =>
    let txEnd := (121 + tbl) % 2 ^ 32
    ebind (sliceE data 125 txEnd) fun transBytes =>
    ebind (liftMsg (bytesToTransactions (beVal cntB) transBytes)) fun txs =>
    let featuresStart := (txEnd + 4) % 2 ^ 32
    ebind (sliceE data txEnd featuresStart) fun fcntB =>
    let fcnt := beVal fcntB
    ebind (sliceE data featuresStart ((featuresStart + (2 * fcnt) % 2 ^ 32) % 2 ^ 32))
      fun fdata =>
    let features := (featuresFromBinary fdata ++ List.replicate fcnt 0).take fcnt
    ebind (if RewardBlockVersion ≤ v then
             let pos := (featuresStart + (2 * fcnt) % 2 ^ 32) % 2 ^ 32
             ebind (sliceE data pos ((pos + 8) % 2 ^ 32)) fun rvB =>
               .ok (i64OfU64 (beVal rvB))
           else .ok (-1 : Int)) fun rv =>
    ebind (sliceE data (data.length - 96) (data.length - 64)) fun pk =>
    ebind (sliceE data (data.length - 64) data.length) fun sig =>
    .ok { header := { Version := v, Timestamp := beVal tsB, Parent := parent,
                      FeaturesCount := fcnt, Features := features, RewardVote := rv,
                      ConsensusBlockLength := beVal cblB, nxt := ⟨beVal btB, genSig⟩,
                      TransactionBlockLength := tbl, TransactionCount := beVal cntB,
                      GeneratorPublicKey := pk, BlockSignature := sig,
                      TransactionsRoot := [], stateHash := none,
                      challengedHeader := none,
                      ID := NewBlockIDFromSignature sig },
          Transactions := txs }
  else
    if tbl < 1 then .error (.msg "TransactionBlockLength is too small")
    else
    ebind (indexE data 121) fun txCount =>
    -- Go computes 122+TransactionBlockLength-1 in uint32; on this path the
    -- guard above gives tbl at least 1, under which the wrapping expression
    -- equals (122 + tbl - 1) mod 2 ^ 32.
    ebind (sliceE data 122 ((122 + tbl - 1) % 2 ^ 32)) fun transBytes =>
    ebind (liftMsg (bytesToTransactions txCount transBytes)) fun txs =>
    ebind (sliceE data (data.length - 96) (data.length - 64)) fun pk =>
    ebind (sliceE data (data.length - 64) data.length) fun sig =>
    .ok { header := { Version := v, Timestamp := beVal tsB, Parent := parent,
                      FeaturesCount := 0, Features := [], RewardVote := -1,
                      ConsensusBlockLength := beVal cblB, nxt := ⟨beVal btB, genSig⟩,
                      TransactionBlockLength := tbl, TransactionCount := txCount,
                      GeneratorPublicKey := pk, BlockSignature := sig,
                      TransactionsRoot := [], stateHash := none,
                      challengedHeader := none,
                      ID := NewBlockIDFromSignature sig },
          Transactions := txs }

/-- Block.UnmarshalBinary: the decoder body inside the panic-recover
boundary. -/
def Block.UnmarshalBinary (scheme : Scheme) (data : Bytes) : Except DErr Block :=
  sanitize (Block.UnmarshalBinaryCore scheme data)

/-- BlockHeader.UnmarshalHeaderFromBinary body (before the recover wrapper):
same fixed prefix as the block decoder, but features start directly at
offset 129 and no transactions are read. -/
def BlockHeader.UnmarshalHeaderFromBinaryCore (scheme : Scheme) (data : Bytes) :
    Except DErr BlockHeader :=
  ebind (indexE data 0) fun v =>
  if v ≥ ProtobufBlockVersion then
    .error (.msg "binary format is not defined for Block versions > 4")
  else
  ebind (sliceE data 1 9) fun tsB =>
  ebind (sliceE data 9 73) fun parentBytes =>
  ebind (liftMsg (NewBlockIDFromBytes parentBytes)) fun parent =>
  ebind (sliceE data 73 77) fun cblB =>
  ebind (sliceE data 77 85) fun btB =>
  ebind (sliceE data 85 117) fun genSig =>
  ebind (sliceE data 117 121) fun tblB =>
  let tbl := beVal tblB
  if NgBlockVersion ≤ v then
    if tbl < 4 then .error (.msg "TransactionBlockLength is too small")
    else
    ebind (sliceE data 121 125) fun cntB =>
    ebind (sliceE data 125 129) fun fcntB =>
    let fcnt := beVal fcntB
    ebind (sliceE data 129 (129 + 2 * fcnt)) fun fdata =>
    let features := (featuresFromBinary fdata ++ List.replicate fcnt 0).take fcnt
    ebind (if RewardBlockVersion ≤ v then
             ebind (sliceE data (129 + 2 * fcnt) (129 + 2 * fcnt + 8)) fun rvB =>
               .ok (i64OfU64 (beVal rvB))
           else .ok (-1 : Int)) fun rv =>
    ebind (sliceE data (data.length - 96) (data.length - 64)) fun pk =>
    ebind (sliceE data (data.length - 64) data.length) fun sig =>
    .ok { Version := v, Timestamp := beVal tsB, Parent := parent,
          FeaturesCount := fcnt, Features := features, RewardVote := rv,
          ConsensusBlockLength := beVal cblB, nxt := ⟨beVal btB, genSig⟩,
          TransactionBlockLength := tbl, TransactionCount := beVal cntB,
          GeneratorPublicKey := pk, BlockSignature := sig,
          TransactionsRoot := [], stateHash := none, challengedHeader := none,
          ID := NewBlockIDFromSignature sig }
  else
    if tbl < 1 then .error (.msg "TransactionBlockLength is too small")
    else
    ebind (indexE data 121) fun txCount =>
    ebind (sliceE data (data.length - 96) (data.length - 64)) fun pk =>
    ebind (sliceE data (data.length - 64) data.length) fun sig =>
    .ok { Version := v, Timestamp := beVal tsB, Parent := parent,
          FeaturesCount := 0, Features := [], RewardVote := -1,
          ConsensusBlockLength := beVal cblB, nxt := ⟨beVal btB, genSig⟩,
          TransactionBlockLength := tbl, TransactionCount := txCount,
          GeneratorPublicKey := pk, BlockSignature := sig,
          TransactionsRoot := [], stateHash := none, challengedHeader := none,
          ID := NewBlockIDFromSignature sig }

/-- BlockHeader.UnmarshalHeaderFromBinary: the header decoder body inside
the panic-recover boundary. -/
def BlockHeader.UnmarshalHeaderFromBinary (scheme : Scheme) (data : Bytes) :
    Except DErr BlockHeader :=
  sanitize (BlockHeader.UnmarshalHeaderFromBinaryCore scheme data)

/-! ### Protobuf block marshalling and unmarshalling -/

/-- Modelled from the spec: the generated g.Block message (header, signature,
repeated signed transactions) and its deterministic marshalling are not
under src.  A signed transaction is a black box identified with its bytes;
the transaction list contributes repeated length-prefixed entries. -/
def pbEncodeBlock (scheme : Scheme) (b : Block) : Bytes :=
  pbEncodeHeader (b.header.HeaderToProtobufHeader scheme) ++
  lenPref b.header.BlockSignature ++
  beBytes 4 b.Transactions.length ++ (b.Transactions.map lenPref).flatten

/-- Block.MarshalToProtobuf. -/
def Block.MarshalToProtobuf (scheme : Scheme) (b : Block) : Bytes :=
  pbEncodeBlock scheme b

/-- Block.Marshal: version dispatch between the protobuf and the binary
encoders. -/
def Block.Marshal (scheme : Scheme) (b : Block) : Except String Bytes :=
  if b.header.Version ≥ ProtobufBlockVersion then .ok (b.MarshalToProtobuf scheme)
  else b.MarshalBinary scheme

/-- Explicit bind for `Option`, kept as a definition so parser proofs can
rewrite one step at a time. -/
def obind {α β : Type} (x : Option α) (f : α → Option β) : Option β :=
  match x with
  | some a => f a
  | none => none

/-- Consume exactly n bytes of the stream. -/
def readN (n : Nat) (s : Bytes) : Option (Bytes × Bytes) :=
  if n ≤ s.length then some (s.take n, s.drop n) else none

/-- Consume a w-byte big-endian number. -/
def readNat (w : Nat) (s : Bytes) : Option (Nat × Bytes) :=
  obind (readN w s) fun p => some (beVal p.1, p.2)

/-- Consume a length-prefixed byte field. -/
def readLP (s : Bytes) : Option (Bytes × Bytes) :=
  obind (readNat 4 s) fun p => readN p.1 p.2

/-- Run a parser a fixed number of times. -/
def readMany {α : Type} (p : Bytes → Option (α × Bytes)) :
    Nat → Bytes → Option (List α × Bytes)
  | 0, s => some ([], s)
  | n + 1, s =>
      obind (p s) fun q =>
      obind (readMany p n q.2) fun r =>
      some (q.1 :: r.1, r.2)

/-- Modelled from the spec: decoder of the challenged-header submessage,
inverse of the modelled deterministic encoding. -/
def pbDecodeCH (s : Bytes) : Option (ChallengedHeader × Bytes) :=
  obind (readNat 8 s) fun p1 =>
  obind (readLP p1.2) fun p2 =>
  obind (readNat 4 p2.2) fun p3 =>
  obind (readMany (readNat 4) p3.1 p3.2) fun p4 =>
  obind (readNat 8 p4.2) fun p5 =>
  obind (readLP p5.2) fun p6 =>
  obind (readNat 8 p6.2) fun p7 =>
  obind (readLP p7.2) fun p8 =>
  obind (readLP p8.2) fun p9 =>
  some ({ Timestamp := p5.1, nxt := ⟨p1.1, p2.1⟩,
          Features := p4.1.map i16OfU16,
          GeneratorPublicKey := p6.1, RewardVote := i64OfU64 p7.1,
          StateHash := p8.1, BlockSignature := p9.1 }, p9.2)

/-- Modelled from the spec: decoder of the optional challenged-header
submessage. -/
def pbDecodeChOpt (s : Bytes) : Option (Option ChallengedHeader × Bytes) :=
  obind (readN 1 s) fun q13 =>
  match q13.1 with
  | [0] => some ((none : Option ChallengedHeader), q13.2)
  | [1] => obind (pbDecodeCH q13.2) fun c => some (some c.1, c.2)
  | _ => none

/-- Modelled from the spec: decoder of the protobuf header message, the
fields mapping 1:1 back onto the header (feature votes narrowed back to
int16, the reference re-read through NewBlockIDFromBytes, an empty state
hash meaning absence); returns the chain id alongside.  The binary-only
length fields have no protobuf counterpart and decode to zero. -/
def pbDecodeHeader (s : Bytes) : Option ((Scheme × BlockHeader) × Bytes) :=
  obind (readNat 4 s) fun q1 =>
  obind (readLP q1.2) fun q2 =>
  obind (readNat 8 q2.2) fun q3 =>
  obind (readLP q3.2) fun q4 =>
  obind (readNat 4 q4.2) fun q5 =>
  obind (readMany (readNat 4) q5.1 q5.2) fun q6 =>
  obind (readNat 8 q6.2) fun q7 =>
  obind (readNat 4 q7.2) fun q8 =>
  obind (readLP q8.2) fun q9 =>
  obind (readNat 8 q9.2) fun q10 =>
  obind (readLP q10.2) fun q11 =>
  obind (readLP q11.2) fun q12 =>
  obind (pbDecodeChOpt q12.2) fun q14 =>
  obind (match NewBlockIDFromBytes q2.1 with
         | .ok p => some p
         | .error _ => none) fun parent =>
  let features := q6.1.map i16OfU16
  some ((q1.1 % 256,
    { Version := q8.1 % 256, Timestamp := q7.1, Parent := parent,
      FeaturesCount := features.length, Features := features,
      RewardVote := i64OfU64 q10.1, ConsensusBlockLength := 0,
      nxt := ⟨q3.1, q4.1⟩, TransactionBlockLength := 0,
      TransactionCount := 0, GeneratorPublicKey := q9.1,
      BlockSignature := zeroSignature,
      TransactionsRoot := q11.1,
      stateHash := if q12.1 = [] then none else some q12.1,
      challengedHeader := q14.1, ID := BlockID.zero }), q14.2)

/-- Block.UnmarshalFromProtobuf.  Modelled from the spec where the generated
decoder and the ProtobufConverter are not under src: the header decodes
1:1, the outer signature and the transactions are attached, the transaction
count is the list length, and — as the spec states for parsing — the block
ID is regenerated from the decoded content. -/
def Block.UnmarshalFromProtobuf (fastHash : Bytes → Bytes) (data : Bytes) :
    Except String Block :=
  match (obind (pbDecodeHeader data) fun r1 =>
         obind (readLP r1.2) fun rsig =>
         obind (readNat 4 rsig.2) fun rcnt =>
         obind (readMany readLP rcnt.1 rcnt.2) fun rtxs =>
         if rtxs.2 = [] then
           let hdr : BlockHeader :=
             { r1.1.2 with BlockSignature := rsig.1, TransactionCount := rtxs.1.length }
           some (r1.1.1, ({ header := hdr, Transactions := rtxs.1 } : Block))
         else none) with
  | some (scheme, b) =>
      .ok { b with header := b.header.GenerateBlockID fastHash scheme }
  | none => .error "failed to unmarshal block from protobuf"

/-! ### Signing payloads, verification, transactions root -/

/-- Block.VerifySignature: `verify pk sig payload` is the external crypto
capability crypto.Verify.  Below the Protobuf version the payload is the
pre-signature binary encoding; from the Protobuf version on the protobuf
header-without-signature bytes, with the additional original-header check
when a challenge is present. -/
def Block.VerifySignature (verify : Bytes → Bytes → Bytes → Bool) (scheme : Scheme)
    (b : Block) : Except String Bool :=
  if b.header.Version < ProtobufBlockVersion then
    match b.WriteToWithoutSignature scheme with
    | .error e => .error e
    | .ok bb => .ok (verify b.header.GeneratorPublicKey b.header.BlockSignature bb)
  else
    let headerBytes := b.header.MarshalHeaderToProtobufWithoutSignature scheme
    let isHeaderValid := verify b.header.GeneratorPublicKey b.header.BlockSignature headerBytes
    if isHeaderValid = false then .ok false
    else
      match b.header.origHeader with
      | (origHeader, changed) =>
          if changed = false then .ok true
          else
            .ok (verify origHeader.GeneratorPublicKey origHeader.BlockSignature
                   (origHeader.MarshalHeaderToProtobufWithoutSignature scheme))

/-- Block.transactionsRoot: an error below the Protobuf version; otherwise
the root of the Merkle tree built by pushing each transaction's canonical
Merkle bytes in list order.  `merkleRoot` and `merkleBytes` are the external
crypto and transaction capabilities. -/
def Block.transactionsRoot (merkleRoot : List Bytes → Bytes)
    (merkleBytes : Scheme → Transaction → Bytes) (scheme : Scheme) (b : Block) :
    Except String Bytes :=
  if b.header.Version < ProtobufBlockVersion then
    .error "no transactions root prior block version 5"
  else .ok (merkleRoot (b.Transactions.map (merkleBytes scheme)))

/-- Block.SetTransactionsRoot. -/
def Block.SetTransactionsRoot (merkleRoot : List Bytes → Bytes)
    (merkleBytes : Scheme → Transaction → Bytes) (scheme : Scheme) (b : Block) :
    Except String Block :=
  match b.transactionsRoot merkleRoot merkleBytes scheme with
  | .error e => .error e
  | .ok rh => .ok { b with header := { b.header with TransactionsRoot := rh } }

/-- Block.VerifyTransactionsRoot: always true below the Protobuf version;
otherwise a byte-for-byte comparison of the stored root against the
recomputed one. -/
def Block.VerifyTransactionsRoot (merkleRoot : List Bytes → Bytes)
    (merkleBytes : Scheme → Transaction → Bytes) (scheme : Scheme) (b : Block) :
    Except String Bool :=
  if b.header.Version < ProtobufBlockVersion then .ok true
  else
    match b.transactionsRoot merkleRoot merkleBytes scheme with
    | .error e => .error e
    | .ok rh => .ok (b.header.TransactionsRoot == rh)

/-! ### Block construction -/

/-- CreateBlock: build a block from parts, computing the derived fields —
the transaction-block length below the Protobuf version (one extra byte
before Ng, four from Ng through Reward), the transactions root from the
Protobuf version on, and finally the block ID. -/
def CreateBlock (merkleRoot : List Bytes → Bytes)
    (merkleBytes : Scheme → Transaction → Bytes) (fastHash : Bytes → Bytes)
    (transactions : List Transaction) (timestamp : Nat) (parentID : BlockID)
    (publicKey : Bytes) (nxtConsensus : NxtConsensus) (version : Nat)
    (features : List Int) (rewardVote : Int) (scheme : Scheme)
    (stateHash : Option Bytes) : Block :=
  let b : Block :=
    { header := { Version := version, Timestamp := timestamp, Parent := parentID,
                  FeaturesCount := features.length, Features := features,
                  RewardVote := rewardVote,
                  ConsensusBlockLength := nxtConsensus.BinarySize % 2 ^ 32,
                  nxt := nxtConsensus, TransactionBlockLength := 0,
                  TransactionCount := transactions.length,
                  GeneratorPublicKey := publicKey, BlockSignature := zeroSignature,
                  TransactionsRoot := [], stateHash := stateHash,
                  challengedHeader := none, ID := BlockID.zero },
      Transactions := transactions }
  let b :=
    if version < NgBlockVersion then
      { b with header := { b.header with
          TransactionBlockLength := (transactionsBinarySize transactions + 1) % 2 ^ 32 } }
    else if version ≤ RewardBlockVersion then
      { b with header := { b.header with
          TransactionBlockLength := (transactionsBinarySize transactions + 4) % 2 ^ 32 } }
    else
      { b with header := { b.header with
          TransactionsRoot := merkleRoot (transactions.map (merkleBytes scheme)) } }
  { b with header := b.header.GenerateBlockID fastHash scheme }

/-! ### Wellformedness: the valid field combinations of a version -/

/-- Structural invariants a challenged header satisfies through the Go field
types: value bounds of the fixed-width integer fields and representable
lengths of the byte fields. -/
def wfCH (ch : ChallengedHeader) : Bool :=
  decide (ch.Timestamp < 2 ^ 64) && decide (ch.nxt.BaseTarget < 2 ^ 64) &&
  decide (-(2 ^ 63) ≤ ch.RewardVote) && decide (ch.RewardVote < 2 ^ 63) &&
  ch.Features.all (fun f => decide (-(2 ^ 15) ≤ f) && decide (f < 2 ^ 15)) &&
  decide (ch.Features.length < 2 ^ 32) &&
  decide (ch.nxt.GenSignature.length < 2 ^ 32) &&
  decide (ch.GeneratorPublicKey.length < 2 ^ 32) &&
  decide (ch.StateHash.length < 2 ^ 32) &&
  decide (ch.BlockSignature.length < 2 ^ 32)

/-- The valid field combination of a block for its version: the bounds the
Go field types impose (uint64/uint32/int64/int16 ranges, fixed crypto
sizes), the derived-field consistency the claims name (transaction count,
features count, transaction-block length), and the version-specific shape
of the optional fields (signature parent, 32-byte generation signature and
no protobuf-only fields below the Protobuf version; digest or signature
parent and zero binary-length fields from it on).  The size bound is the
representability of the serialized block in the Go uint32 offset
arithmetic of the decoder. -/
def wfBlock (b : Block) : Bool :=
  let h := b.header
  decide (h.Timestamp < 2 ^ 64) && decide (h.nxt.BaseTarget < 2 ^ 64) &&
  decide (-(2 ^ 63) ≤ h.RewardVote) && decide (h.RewardVote < 2 ^ 63) &&
  h.Features.all (fun f => decide (-(2 ^ 15) ≤ f) && decide (f < 2 ^ 15)) &&
  h.FeaturesCount == h.Features.length && decide (h.Features.length < 2 ^ 32) &&
  decide (h.ConsensusBlockLength < 2 ^ 32) &&
  h.GeneratorPublicKey.length == 32 && h.BlockSignature.length == 64 &&
  h.Parent.wfb &&
  h.TransactionCount == b.Transactions.length &&
  decide (transactionsBinarySize b.Transactions + 2 * h.Features.length + 250 < 2 ^ 32) &&
  (if h.Version < ProtobufBlockVersion then
     decide (1 ≤ h.Version) &&
     h.Parent.idType == BlockIDType.signatureID &&
     h.nxt.GenSignature.length == 32 &&
     h.TransactionsRoot == ([] : Bytes) &&
     h.stateHash == (none : Option Bytes) &&
     h.challengedHeader == (none : Option ChallengedHeader) &&
     (if h.Version < NgBlockVersion then
        h.TransactionBlockLength == transactionsBinarySize b.Transactions + 1 &&
        decide (b.Transactions.length < 256) &&
        h.Features == ([] : List Int) && h.RewardVote == (-1 : Int)
      else
        h.TransactionBlockLength == transactionsBinarySize b.Transactions + 4 &&
        (if h.Version < RewardBlockVersion then h.RewardVote == (-1 : Int) else true))
   else
     decide (h.Version < 256) &&
     h.TransactionBlockLength == 0 && h.ConsensusBlockLength == 0 &&
     decide (h.nxt.GenSignature.length < 2 ^ 32) &&
     decide (h.TransactionsRoot.length < 2 ^ 32) &&
     (match h.stateHash with
      | none => true
      | some sh => sh.length == 32) &&
     (match h.challengedHeader with
      | none => true
      | some ch => wfCH ch))

/-! ### Streaming BlockID reads -/

/-- An I/O error of the modelled byte stream: EOF when nothing could be
read, unexpected EOF after a partial read. -/
inductive IOErr
  | eof
  | unexpectedEOF
  deriving DecidableEq

/-- The error of BlockID.ReadFrom: ErrInvalidBlockIDDataSize joined with the
underlying I/O error. -/
inductive ReadErr
  | invalidSizeJoin (e : IOErr)
  deriving DecidableEq

/-- The io.ReadFull contract over a byte-list stream: the bytes written into
the buffer, the count read, and the I/O error if fewer than n bytes were
available. -/
def readFull (n : Nat) (s : Bytes) : Bytes × Nat × Option IOErr :=
  if n ≤ s.length then (s.take n, n, none)
  else if s.length = 0 then ([], 0, some .eof)
  else (s, s.length, some .unexpectedEOF)

/-- BlockID.readSignatureFrom: read exactly 64 bytes into the signature
field; on truncation the invalid-size error joined with the I/O error. -/
def BlockID.readSignatureFrom (id : BlockID) (s : Bytes) :
    Except ReadErr BlockID × Nat :=
  match readFull 64 s with
  | (bs, n, none) => (.ok { id with sig := bs }, n)
  | (_, n, some e) => (.error (.invalidSizeJoin e), n)

/-- BlockID.readDigestFrom: read exactly 32 bytes into the digest field. -/
def BlockID.readDigestFrom (id : BlockID) (s : Bytes) :
    Except ReadErr BlockID × Nat :=
  match readFull 32 s with
  | (bs, n, none) => (.ok { id with dig := bs }, n)
  | (_, n, some e) => (.error (.invalidSizeJoin e), n)

/-- BlockID.readUndefinedFrom: under a 64-byte limit, read 32 bytes into the
digest field (truncation is the invalid-size error joined with the I/O
error), then attempt 32 more into the upper half of the signature field:
EOF there resolves the ID as a digest, success combines the 64 bytes into a
signature and clears the digest field. -/
def BlockID.readUndefinedFrom (id : BlockID) (s : Bytes) :
    Except ReadErr BlockID × Nat :=
  let limited := s.take 64
  match readFull 32 limited with
  | (_, n1, some e) => (.error (.invalidSizeJoin e), n1)
  | (d, n1, none) =>
      match readFull 32 (limited.drop 32) with
      | (bs2, n2, some _) =>
          let sigPart : Bytes := id.sig.take 32 ++ bs2 ++ id.sig.drop (32 + bs2.length)
          (.ok { id with dig := d, idType := .digestID, sig := sigPart }, n1 + n2)
      | (bs2, n2, none) =>
          (.ok { id with sig := d ++ bs2, dig := zeroDigest, idType := .signatureID },
            n1 + n2)

/-- BlockID.ReadFrom: dispatch on the current variant state of the ID. -/
def BlockID.ReadFrom (id : BlockID) (s : Bytes) : Except ReadErr BlockID × Nat :=
  match id.idType with
  | .signatureID => id.readSignatureFrom s
  | .digestID => id.readDigestFrom s
  | .undefined => id.readUndefinedFrom s

/-! ### Concrete sample values (used by witnesses) -/

/-- A degenerate signature-verification capability accepting everything. -/
def sampleVerify : Bytes → Bytes → Bytes → Bool := fun _ _ _ => true

/-- A degenerate hash capability. -/
def sampleHash : Bytes → Bytes := fun _ => zeroDigest

/-- A degenerate Merkle-root capability. -/
def sampleRoot : List Bytes → Bytes := fun _ => zeroDigest

/-- A degenerate Merkle-leaf capability. -/
def sampleLeaf : Scheme → Transaction → Bytes := fun _ t => t

/-- A sample challenged header. -/
def sampleCH : ChallengedHeader :=
  { Timestamp := 7, nxt := ⟨100, zeroDigest⟩, Features := [1],
    GeneratorPublicKey := List.replicate 32 1, RewardVote := -1,
    StateHash := zeroDigest, BlockSignature := zeroSignature }

/-- A sample Plain-version (2) header with no transactions recorded. -/
def sampleHeader2 : BlockHeader :=
  { Version := 2, Timestamp := 1, Parent := NewBlockIDFromSignature zeroSignature,
    FeaturesCount := 0, Features := [], RewardVote := -1,
    ConsensusBlockLength := 40, nxt := ⟨100, zeroDigest⟩,
    TransactionBlockLength := 1, TransactionCount := 0,
    GeneratorPublicKey := List.replicate 32 0, BlockSignature := zeroSignature,
    TransactionsRoot := [], stateHash := none, challengedHeader := none,
    ID := BlockID.zero }

/-- A sample Plain-version (2) block. -/
def sampleBlock2 : Block := ⟨sampleHeader2, []⟩

/-- A sample Protobuf-version (5) header. -/
def sampleHeader5 : BlockHeader :=
  { Version := 5, Timestamp := 1, Parent := NewBlockIDFromDigest zeroDigest,
    FeaturesCount := 0, Features := [], RewardVote := -1,
    ConsensusBlockLength := 0, nxt := ⟨100, zeroDigest⟩,
    TransactionBlockLength := 0, TransactionCount := 0,
    GeneratorPublicKey := List.replicate 32 0, BlockSignature := zeroSignature,
    TransactionsRoot := zeroDigest, stateHash := none, challengedHeader := none,
    ID := BlockID.zero }

/-- A sample Protobuf-version (5) block. -/
def sampleBlock5 : Block := ⟨sampleHeader5, []⟩

/-- A sample Protobuf-version (5) header carrying a challenge. -/
def sampleHeader5ch : BlockHeader := { sampleHeader5 with challengedHeader := some sampleCH }

/-- A sample challenged Protobuf-version (5) block. -/
def sampleBlock5ch : Block := ⟨sampleHeader5ch, []⟩

/-- The block of the concrete decode scenario: Plain version, no
transactions, base target 100, all-zero 32-byte generation signature. -/
def sampleCreated : Block :=
  CreateBlock sampleRoot sampleLeaf sampleHash [] 1
    (NewBlockIDFromSignature zeroSignature) (List.replicate 32 0)
    ⟨100, zeroDigest⟩ 2 [] (-1) 87 none

/-- Replace the derived ID field of a block. -/
def Block.withID (b : Block) (id : BlockID) : Block :=
  { b with header := { b.header with ID := id } }

/-- Replace the stored transactions root of a block. -/
def Block.withRoot (b : Block) (root : Bytes) : Block :=
  { b with header := { b.header with TransactionsRoot := root } }

/-- The binary encoding of the scenario block. -/
def sampleCreatedBytes : Bytes :=
  match sampleCreated.MarshalBinary 87 with
  | .ok bs => bs
  | .error _ => []

/-- The decode of the scenario-block bytes. -/
def sampleDecoded : Block :=
  match Block.UnmarshalBinary 87 sampleCreatedBytes with
  | .ok dec => dec
  | .error _ => sampleCreated

/-! ### Helper lemmas -/

@[simp] theorem beBytes_length (n x : Nat) : (beBytes n x).length = n := by
  induction n generalizing x with
  | zero => rfl
  | succ n ih => simp [beBytes, ih]

theorem beVal_append (xs ys : Bytes) :
    beVal (xs ++ ys) = ys.foldl (fun a b => a * 256 + b) (beVal xs) := by
  simp [beVal, List.foldl_append]

theorem beVal_beBytes (n x : Nat) : beVal (beBytes n x) = x % 256 ^ n := by
  induction n generalizing x with
  | zero => simp [beBytes, beVal, Nat.mod_one]
  | succ n ih =>
      have h : beVal (beBytes n (x / 256) ++ [x % 256]) =
          beVal (beBytes n (x / 256)) * 256 + x % 256 := by
        simp [beVal_append, beVal]
      rw [beBytes, h, ih]
      have h1 : x / 256 % 256 ^ n = x % (256 * 256 ^ n) / 256 :=
        (Nat.mod_mul_right_div_self x 256 (256 ^ n)).symm
      have h2 : x % 256 = x % (256 * 256 ^ n) % 256 :=
        (Nat.mod_mod_of_dvd x ⟨256 ^ n, rfl⟩).symm
      rw [Nat.pow_succ, h1, h2, Nat.mul_comm (256 ^ n) 256]
      have h3 := Nat.div_add_mod (x % (256 * 256 ^ n)) 256
      omega

theorem beVal_beBytes_of_lt {n x : Nat} (h : x < 256 ^ n) :
    beVal (beBytes n x) = x := by
  rw [beVal_beBytes, Nat.mod_eq_of_lt h]
theorem i64OfU64_u64OfI64 {x : Int} (h1 : -(2 ^ 63) ≤ x) (h2 : x < 2 ^ 63) :
    i64OfU64 (u64OfI64 x) = x := by
  unfold i64OfU64 u64OfI64
  have hmod : x % (2 ^ 64 : Int) = if 0 ≤ x then x else x + 2 ^ 64 := by
    split <;> omega
  split <;> omega

theorem u64OfI64_lt (x : Int) : u64OfI64 x < 2 ^ 64 := by
  unfold u64OfI64
  omega

theorem i16OfU16_u16OfI16 {x : Int} (h1 : -(2 ^ 15) ≤ x) (h2 : x < 2 ^ 15) :
    i16OfU16 (u16OfI16 x) = x := by
  unfold i16OfU16 u16OfI16
  have hmod : x % (2 ^ 16 : Int) = if 0 ≤ x then x else x + 2 ^ 16 := by
    split <;> omega
  split <;> omega

theorem i16OfU16_u32OfI16 {x : Int} (h1 : -(2 ^ 15) ≤ x) (h2 : x < 2 ^ 15) :
    i16OfU16 (u32OfI16 x) = x := by
  unfold i16OfU16 u32OfI16
  have hmod : x % (2 ^ 32 : Int) = if 0 ≤ x then x else x + 2 ^ 32 := by
    split <;> omega
  split <;> omega

theorem u16OfI16_lt (x : Int) : u16OfI16 x < 2 ^ 16 := by
  unfold u16OfI16
  omega

theorem u32OfI16_lt (x : Int) : u32OfI16 x < 2 ^ 32 := by
  unfold u32OfI16
  omega
@[simp] theorem ebind_ok {ε α β : Type} (a : α) (f : α → Except ε β) :
    ebind (Except.ok (ε := ε) a) f = f a := rfl

@[simp] theorem ebind_error {ε α β : Type} (e : ε) (f : α → Except ε β) :
    ebind (Except.error (α := α) e) f = Except.error (α := β) e := rfl
@[simp] theorem obind_some {α β : Type} (a : α) (f : α → Option β) :
    obind (some a) f = f a := rfl

@[simp] theorem obind_none {α β : Type} (f : α → Option β) :
    obind (none : Option α) f = none := rfl

theorem pow256_4 : (256 : Nat) ^ 4 = 2 ^ 32 := by norm_num

theorem pow256_8 : (256 : Nat) ^ 8 = 2 ^ 64 := by norm_num

theorem drop_app {x : Bytes} (y : Bytes) {n : Nat} (h : x.length = n) :
    (x ++ y).drop n = y := by
  subst h
  exact List.drop_left x y

theorem take_app {x : Bytes} (y : Bytes) {n : Nat} (h : x.length = n) :
    (x ++ y).take n = x := by
  subst h
  exact List.take_left x y

/-- Evaluate a Go slice expression on exactly the middle chunk of an
append. -/
theorem sliceE_eq {data x y z : Bytes} {a b : Nat}
    (hdata : data = x ++ (y ++ z)) (hx : x.length = a) (hy : y.length = b - a)
    (hab : a ≤ b) :
    sliceE data a b = .ok y := by
  subst hdata
  unfold sliceE
  have hlen : b ≤ (x ++ (y ++ z)).length := by
    simp [List.length_append]
    omega
  rw [if_pos ⟨hab, hlen⟩, drop_app _ hx, take_app _ hy]

/-- Evaluate a Go index expression at the head of the tail of an append. -/
theorem indexE_app {data x : Bytes} (v : Nat) (rest : Bytes) {i : Nat}
    (hdata : data = x ++ v :: rest) (h : x.length = i) :
    indexE data i = .ok v := by
  subst hdata
  unfold indexE
  have hlt : i < (x ++ v :: rest).length := by
    simp [List.length_append]
    omega
  rw [dif_pos hlt]
  subst h
  congr 1
  rw [List.get_eq_getElem, List.getElem_append_right (Nat.le_refl _)]
  simp

theorem transactionsToBinary_length (txs : List Transaction) :
    (transactionsToBinary txs).length = transactionsBinarySize txs := by
  induction txs with
  | nil => rfl
  | cons t ts ih =>
      simp [transactionsToBinary, transactionsBinarySize, List.flatten] at *
      omega

theorem transactionsBinarySize_ge (txs : List Transaction) :
    4 * txs.length ≤ transactionsBinarySize txs := by
  induction txs with
  | nil => simp [transactionsBinarySize]
  | cons t ts ih =>
      simp [transactionsBinarySize] at *
      omega

theorem featuresToBinary_length (fs : List Int) :
    (featuresToBinary fs).length = 2 * fs.length := by
  induction fs with
  | nil => rfl
  | cons f fs ih =>
      simp [featuresToBinary, List.flatten] at *
      omega

theorem bytesToTransactions_rt (txs : List Transaction) (extra : Bytes)
    (h : ∀ t ∈ txs, t.length < 2 ^ 32) :
    bytesToTransactions txs.length (transactionsToBinary txs ++ extra) = .ok txs := by
  induction txs with
  | nil => rfl
  | cons t ts ih =>
      have ht : t.length < 2 ^ 32 := h t (by simp)
      have hts : ∀ u ∈ ts, u.length < 2 ^ 32 := fun u hu => h u (by simp [hu])
      have hdata : transactionsToBinary (t :: ts) ++ extra =
          beBytes 4 t.length ++ (t ++ (transactionsToBinary ts ++ extra)) := by
        simp [transactionsToBinary, List.flatten, List.append_assoc]
      show bytesToTransactions (ts.length + 1) _ = _
      unfold bytesToTransactions
      rw [hdata]
      have hlen : (beBytes 4 t.length ++ (t ++ (transactionsToBinary ts ++ extra))).length =
          4 + (t.length + ((transactionsToBinary ts).length + extra.length)) := by
        simp [List.length_append]
      rw [if_pos (by omega)]
      rw [take_app _ (beBytes_length 4 t.length),
        beVal_beBytes_of_lt (by rw [pow256_4]; omega)]
      rw [if_pos (by omega)]
      have hdrop4 : (beBytes 4 t.length ++ (t ++ (transactionsToBinary ts ++ extra))).drop 4 =
          t ++ (transactionsToBinary ts ++ extra) := drop_app _ (beBytes_length 4 t.length)
      have hdropAll :
          (beBytes 4 t.length ++ (t ++ (transactionsToBinary ts ++ extra))).drop
            (4 + t.length) = transactionsToBinary ts ++ extra := by
        rw [show beBytes 4 t.length ++ (t ++ (transactionsToBinary ts ++ extra)) =
          (beBytes 4 t.length ++ t) ++ (transactionsToBinary ts ++ extra) from by
            simp [List.append_assoc]]
        exact drop_app _ (by simp)
      rw [hdropAll, ih hts, hdrop4, take_app _ rfl]

theorem featuresFromBinary_rt (fs : List Int)
    (h : ∀ f ∈ fs, -(2 ^ 15) ≤ f ∧ f < 2 ^ 15) :
    featuresFromBinary (featuresToBinary fs) = fs := by
  induction fs with
  | nil => rfl
  | cons f fs ih =>
      have hf := h f (by simp)
      have hfs : ∀ g ∈ fs, -(2 ^ 15) ≤ g ∧ g < 2 ^ 15 := fun g hg => h g (by simp [hg])
      have hu : u16OfI16 f < 2 ^ 16 := u16OfI16_lt f
      have hexp : featuresToBinary (f :: fs) =
          u16OfI16 f / 256 % 256 :: u16OfI16 f % 256 :: featuresToBinary fs := by
        simp [featuresToBinary, List.flatten, beBytes]
      rw [hexp]
      show i16OfU16 (u16OfI16 f / 256 % 256 * 256 + u16OfI16 f % 256) :: _ = _
      have hdiv : u16OfI16 f / 256 % 256 = u16OfI16 f / 256 :=
        Nat.mod_eq_of_lt (by omega)
      have hval : u16OfI16 f / 256 % 256 * 256 + u16OfI16 f % 256 = u16OfI16 f := by
        rw [hdiv]
        omega
      rw [hval, i16OfU16_u16OfI16 hf.1 hf.2, ih hfs]

/-- NewBlockIDFromBytes recovers a wellformed BlockID from its bytes. -/
theorem newBlockIDFromBytes_bytes {id : BlockID} (h : id.wfb = true) :
    NewBlockIDFromBytes id.bytes = .ok id := by
  obtain ⟨sg, dg, t⟩ := id
  cases t <;>
    simp only [BlockID.wfb, Bool.and_eq_true, beq_iff_eq] at h
  case undefined => exact absurd h (by simp)
  case signatureID =>
      obtain ⟨h1, h2⟩ := h
      subst h2
      simp [BlockID.bytes, NewBlockIDFromBytes, signatureSize, h1,
        NewBlockIDFromSignature]
  case digestID =>
      obtain ⟨h1, h2⟩ := h
      subst h2
      simp [BlockID.bytes, NewBlockIDFromBytes, signatureSize, digestSize, h1,
        NewBlockIDFromDigest]

theorem mem_le_binarySize {t : Transaction} {txs : List Transaction} (h : t ∈ txs) :
    4 + t.length ≤ transactionsBinarySize txs := by
  induction txs with
  | nil => cases h
  | cons u us ih =>
      rcases List.mem_cons.mp h with h | h
      · subst h
        simp [transactionsBinarySize]
      · have := ih h
        simp [transactionsBinarySize] at *
        omega

/-- An uninitialized BlockID is valid for no version. -/
theorem undefined_not_valid {id : BlockID} (h : id.idType = .undefined) (v : Nat) :
    id.IsValid v = false := by
  unfold BlockID.IsValid
  rw [h]
  split <;> rfl

/-- sanitize never returns the fault value. -/
theorem sanitize_ne_fault {α : Type} (r : Except DErr α) :
    sanitize r ≠ .error .fault := by
  unfold sanitize
  match r with
  | .ok a => simp
  | .error .fault => simp
  | .error (.msg s) => simp

/-! ### Claim theorems -/

/-- C6: BlockID.IsValid is true exactly when the variant matches the
version-mandated shape — the digest variant for versions at or above
Protobuf, the signature variant below — and an uninitialized BlockID (the
undefined variant, as in the zero value) is invalid for every version. -/
theorem blockID_isValid_spec (id : BlockID) (v : Nat) :
    (id.IsValid v = true ↔
      ((ProtobufBlockVersion ≤ v ∧ id.idType = .digestID) ∨
       (v < ProtobufBlockVersion ∧ id.idType = .signatureID))) ∧
    (id.idType = .undefined → id.IsValid v = false) ∧
    BlockID.zero.IsValid v = false := by
  refine ⟨?_, fun h => undefined_not_valid h v, undefined_not_valid rfl v⟩
  by_cases h5 : ProtobufBlockVersion ≤ v
  · have hn : ¬ v < ProtobufBlockVersion := by omega
    simp [BlockID.IsValid, h5, hn, ge_iff_le]
  · have hn : v < ProtobufBlockVersion := by omega
    simp [BlockID.IsValid, h5, hn, ge_iff_le]

/-- Witness for C6 at concrete inputs. -/
theorem blockID_isValid_spec_witness :
    BlockID.zero.IsValid 3 = false ∧
    (NewBlockIDFromDigest zeroDigest).IsValid 5 = true ∧
    (NewBlockIDFromSignature zeroSignature).IsValid 2 = true := by
  refine ⟨(blockID_isValid_spec BlockID.zero 3).2.1 rfl, ?_, ?_⟩
  · exact (blockID_isValid_spec (NewBlockIDFromDigest zeroDigest) 5).1.mpr
      (Or.inl ⟨by decide, rfl⟩)
  · exact (blockID_isValid_spec (NewBlockIDFromSignature zeroSignature) 2).1.mpr
      (Or.inr ⟨by decide, rfl⟩)

/-- C10: the BlockID accessor ignores the cached ID field below the
Protobuf version and rebuilds the signature-variant ID from the block
signature; from the Protobuf version on it returns the cached ID field
as-is, so on a header whose ID was never generated (zero value) it returns
an uninitialized BlockID that IsValid rejects for every version. -/
theorem blockHeader_blockID_spec (h : BlockHeader) :
    (h.Version < ProtobufBlockVersion →
       ∀ cached : BlockID,
         ({ h with ID := cached } : BlockHeader).BlockID =
           NewBlockIDFromSignature h.BlockSignature) ∧
    (ProtobufBlockVersion ≤ h.Version →
       h.BlockID = h.ID ∧
       (h.ID = BlockID.zero → ∀ v, h.BlockID.IsValid v = false)) := by
  constructor
  · intro hv cached
    simp [BlockHeader.BlockID, hv]
  · intro hv
    have hn : ¬ h.Version < ProtobufBlockVersion := by omega
    refine ⟨by simp [BlockHeader.BlockID, hn], fun hz v => ?_⟩
    simp only [BlockHeader.BlockID, hn, if_false]
    rw [hz]
    exact undefined_not_valid rfl v

/-- Witness for C10 at concrete inputs. -/
theorem blockHeader_blockID_spec_witness :
    ({ sampleHeader2 with ID := NewBlockIDFromDigest zeroDigest } : BlockHeader).BlockID =
      NewBlockIDFromSignature sampleHeader2.BlockSignature ∧
    sampleHeader5.BlockID = sampleHeader5.ID ∧
    sampleHeader5.BlockID.IsValid 5 = false := by
  refine ⟨(blockHeader_blockID_spec sampleHeader2).1 (by decide) _, ?_, ?_⟩
  · exact ((blockHeader_blockID_spec sampleHeader5).2 (by decide)).1
  · exact ((blockHeader_blockID_spec sampleHeader5).2 (by decide)).2 rfl 5

/-- C5: challenged-header recovery produces, as a pure value transformation
that leaves the input header untouched, a header equal to the input with
exactly the Timestamp, NxtConsensus, Features, GeneratorPublicKey,
RewardVote, StateHash and BlockSignature fields replaced by the challenged
values and with the challenged-header field cleared; every other field —
Version, Parent, FeaturesCount, ConsensusBlockLength,
TransactionBlockLength, TransactionCount, TransactionsRoot, ID — is
unchanged, and the challenge is reported as present. -/
theorem origHeader_spec (h : BlockHeader) (ch : ChallengedHeader)
    (hch : h.challengedHeader = some ch) :
    (h.origHeader).2 = true ∧
    (h.origHeader).1.Timestamp = ch.Timestamp ∧
    (h.origHeader).1.nxt = ch.nxt ∧
    (h.origHeader).1.Features = ch.Features ∧
    (h.origHeader).1.GeneratorPublicKey = ch.GeneratorPublicKey ∧
    (h.origHeader).1.RewardVote = ch.RewardVote ∧
    (h.origHeader).1.stateHash = some ch.StateHash ∧
    (h.origHeader).1.BlockSignature = ch.BlockSignature ∧
    (h.origHeader).1.challengedHeader = none ∧
    (h.origHeader).1.Version = h.Version ∧
    (h.origHeader).1.Parent = h.Parent ∧
    (h.origHeader).1.FeaturesCount = h.FeaturesCount ∧
    (h.origHeader).1.ConsensusBlockLength = h.ConsensusBlockLength ∧
    (h.origHeader).1.TransactionBlockLength = h.TransactionBlockLength ∧
    (h.origHeader).1.TransactionCount = h.TransactionCount ∧
    (h.origHeader).1.TransactionsRoot = h.TransactionsRoot ∧
    (h.origHeader).1.ID = h.ID := by
  unfold BlockHeader.origHeader
  rw [hch]
  simp

/-- Witness for C5 at concrete inputs. -/
theorem origHeader_spec_witness :
    (sampleHeader5ch.origHeader).2 = true ∧
    (sampleHeader5ch.origHeader).1.Timestamp = sampleCH.Timestamp ∧
    (sampleHeader5ch.origHeader).1.challengedHeader = none ∧
    (sampleHeader5ch.origHeader).1.ID = sampleHeader5ch.ID := by
  have h := origHeader_spec sampleHeader5ch sampleCH rfl
  exact ⟨h.1, h.2.1, h.2.2.2.2.2.2.2.2.1, h.2.2.2.2.2.2.2.2.2.2.2.2.2.2.2.2⟩

/-- C3: GenerateBlockID assigns the signature-variant ID wrapping the block
signature, with no hashing, below the Protobuf version; from the Protobuf
version on it assigns the digest-variant ID wrapping the fast hash of the
deterministic protobuf encoding of the header without its signature field,
and the resulting ID depends only on the header, never on the transaction
list of the enclosing block. -/
theorem generateBlockID_spec (fastHash : Bytes → Bytes) (scheme : Scheme)
    (h : BlockHeader) :
    (h.Version < ProtobufBlockVersion →
       (h.GenerateBlockID fastHash scheme).ID =
         NewBlockIDFromSignature h.BlockSignature) ∧
    (ProtobufBlockVersion ≤ h.Version →
       (h.GenerateBlockID fastHash scheme).ID =
         NewBlockIDFromDigest
           (fastHash (h.MarshalHeaderToProtobufWithoutSignature scheme))) ∧
    (∀ txs txs' : List Transaction,
       (Block.mk h txs).header.GenerateBlockID fastHash scheme =
         (Block.mk h txs').header.GenerateBlockID fastHash scheme) := by
  refine ⟨fun hv => ?_, fun hv => ?_, fun txs txs' => rfl⟩
  · simp [BlockHeader.GenerateBlockID, BlockHeader.blockIDValue, hv]
  · have hn : ¬ h.Version < ProtobufBlockVersion := by omega
    simp [BlockHeader.GenerateBlockID, BlockHeader.blockIDValue, hn]

/-- Witness for C3 at concrete inputs. -/
theorem generateBlockID_spec_witness :
    (sampleHeader2.GenerateBlockID sampleHash 87).ID =
      NewBlockIDFromSignature sampleHeader2.BlockSignature ∧
    (sampleHeader5.GenerateBlockID sampleHash 87).ID =
      NewBlockIDFromDigest
        (sampleHash (sampleHeader5.MarshalHeaderToProtobufWithoutSignature 87)) := by
  exact ⟨(generateBlockID_spec sampleHash 87 sampleHeader2).1 (by decide),
         (generateBlockID_spec sampleHash 87 sampleHeader5).2.1 (by decide)⟩

/-- C8: the binary block and header decoders are total for every input: a
fault (the modelled out-of-range panic of fixed-offset slicing) never
escapes the recover boundary but is converted into the generic
invalid-data-size error, as the empty input shows. -/
theorem unmarshal_no_fault_spec (scheme : Scheme) (data : Bytes) :
    Block.UnmarshalBinary scheme data ≠ .error .fault ∧
    BlockHeader.UnmarshalHeaderFromBinary scheme data ≠ .error .fault ∧
    Block.UnmarshalBinary scheme [] = .error (.msg "invalid data size") ∧
    BlockHeader.UnmarshalHeaderFromBinary scheme [] = .error (.msg "invalid data size") := by
  exact ⟨sanitize_ne_fault _, sanitize_ne_fault _, rfl, rfl⟩

/-- C1: for a block of version at least Protobuf, VerifySignature returns
false as soon as the outer signature fails to verify against the protobuf
header-without-signature bytes under the generator key (no challenge
processing happens); returns true when that check passes and no challenged
header is carried; and when a challenged header is carried it returns true
exactly when both the outer check and the check of the recovered original
header — its own signature against its own header-without-signature bytes
under its own generator key — pass. -/
theorem verifySignature_protobuf_spec (verify : Bytes → Bytes → Bytes → Bool)
    (scheme : Scheme) (b : Block) (hv : ProtobufBlockVersion ≤ b.header.Version) :
    (verify b.header.GeneratorPublicKey b.header.BlockSignature
        (b.header.MarshalHeaderToProtobufWithoutSignature scheme) = false →
      b.VerifySignature verify scheme = .ok false) ∧
    (verify b.header.GeneratorPublicKey b.header.BlockSignature
        (b.header.MarshalHeaderToProtobufWithoutSignature scheme) = true →
      b.header.challengedHeader = none →
      b.VerifySignature verify scheme = .ok true) ∧
    (∀ ch, b.header.challengedHeader = some ch →
      b.VerifySignature verify scheme =
        .ok (verify b.header.GeneratorPublicKey b.header.BlockSignature
               (b.header.MarshalHeaderToProtobufWithoutSignature scheme) &&
             verify (b.header.origHeader).1.GeneratorPublicKey
               (b.header.origHeader).1.BlockSignature
               ((b.header.origHeader).1.MarshalHeaderToProtobufWithoutSignature
                 scheme))) := by
  have hn : ¬ b.header.Version < ProtobufBlockVersion := by omega
  refine ⟨fun hfalse => ?_, fun htrue hnone => ?_, fun ch hch => ?_⟩
  · simp [Block.VerifySignature, hn, hfalse]
  · simp [Block.VerifySignature, hn, htrue, BlockHeader.origHeader, hnone]
  · by_cases houter : verify b.header.GeneratorPublicKey b.header.BlockSignature
        (b.header.MarshalHeaderToProtobufWithoutSignature scheme) = true
    · simp [Block.VerifySignature, hn, houter, BlockHeader.origHeader, hch]
    · have hf : verify b.header.GeneratorPublicKey b.header.BlockSignature
          (b.header.MarshalHeaderToProtobufWithoutSignature scheme) = false := by
        revert houter
        cases verify b.header.GeneratorPublicKey b.header.BlockSignature
          (b.header.MarshalHeaderToProtobufWithoutSignature scheme) <;> simp
      simp [Block.VerifySignature, hn, hf]

/-- Witness for C1 at concrete inputs: an unconditionally accepting verifier
on an unchallenged and on a challenged version-5 block. -/
theorem verifySignature_protobuf_spec_witness :
    sampleBlock5.VerifySignature sampleVerify 87 = .ok true ∧
    sampleBlock5ch.VerifySignature sampleVerify 87 =
      .ok (sampleVerify sampleBlock5ch.header.GeneratorPublicKey
             sampleBlock5ch.header.BlockSignature
             (sampleBlock5ch.header.MarshalHeaderToProtobufWithoutSignature 87) &&
           sampleVerify (sampleBlock5ch.header.origHeader).1.GeneratorPublicKey
             (sampleBlock5ch.header.origHeader).1.BlockSignature
             ((sampleBlock5ch.header.origHeader).1.MarshalHeaderToProtobufWithoutSignature
               87)) := by
  constructor
  · exact (verifySignature_protobuf_spec sampleVerify 87 sampleBlock5
      (by decide)).2.1 rfl rfl
  · exact (verifySignature_protobuf_spec sampleVerify 87 sampleBlock5ch
      (by decide)).2.2 sampleCH rfl

/-- C4: VerifyTransactionsRoot is true for every block below the Protobuf
version, where the root computation itself is an error; from the Protobuf
version on it returns exactly whether the stored root equals, byte for
byte, the root recomputed over the canonical Merkle bytes of the
transactions in list order — hence true directly after SetTransactionsRoot,
and false on any change of the transaction list (such as appending or
reordering) that alters the recomputed root. -/
theorem verifyTransactionsRoot_spec (merkleRoot : List Bytes → Bytes)
    (merkleBytes : Scheme → Transaction → Bytes) (scheme : Scheme) (b : Block) :
    (b.header.Version < ProtobufBlockVersion →
       b.VerifyTransactionsRoot merkleRoot merkleBytes scheme = .ok true ∧
       ∃ e, b.transactionsRoot merkleRoot merkleBytes scheme = .error e) ∧
    (ProtobufBlockVersion ≤ b.header.Version →
       b.VerifyTransactionsRoot merkleRoot merkleBytes scheme =
         .ok (b.header.TransactionsRoot ==
              merkleRoot (b.Transactions.map (merkleBytes scheme))) ∧
       (∀ b', b.SetTransactionsRoot merkleRoot merkleBytes scheme = .ok b' →
          b'.VerifyTransactionsRoot merkleRoot merkleBytes scheme = .ok true ∧
          (∀ txs' : List Transaction,
             merkleRoot (txs'.map (merkleBytes scheme)) ≠
               merkleRoot (b.Transactions.map (merkleBytes scheme)) →
             ({ b' with Transactions := txs' } : Block).VerifyTransactionsRoot
               merkleRoot merkleBytes scheme = .ok false))) := by
  constructor
  · intro hv
    exact ⟨by simp [Block.VerifyTransactionsRoot, hv],
           ⟨"no transactions root prior block version 5",
            by simp [Block.transactionsRoot, hv]⟩⟩
  · intro hv
    have hn : ¬ b.header.Version < ProtobufBlockVersion := by omega
    constructor
    · simp [Block.VerifyTransactionsRoot, Block.transactionsRoot, hn]
    · intro b' hset
      have hb' : b' = b.withRoot (merkleRoot (b.Transactions.map (merkleBytes scheme))) := by
        simp [Block.SetTransactionsRoot, Block.transactionsRoot, hn, Block.withRoot] at hset ⊢
        exact hset.symm
      subst hb'
      constructor
      · simp [Block.VerifyTransactionsRoot, Block.transactionsRoot, hn, Block.withRoot]
      · intro txs' hne
        have hne' : merkleRoot (b.Transactions.map (merkleBytes scheme)) ≠
            merkleRoot (txs'.map (merkleBytes scheme)) := fun hEq => hne hEq.symm
        simp [Block.VerifyTransactionsRoot, Block.transactionsRoot, hn,
          Block.withRoot, hne']

/-- Witness for C4 at concrete inputs: the pre-Protobuf and the Protobuf
branches at sample blocks. -/
theorem verifyTransactionsRoot_spec_witness :
    (sampleBlock2.VerifyTransactionsRoot sampleRoot sampleLeaf 87 = .ok true ∧
     ∃ e, sampleBlock2.transactionsRoot sampleRoot sampleLeaf 87 = .error e) ∧
    sampleBlock5.VerifyTransactionsRoot sampleRoot sampleLeaf 87 =
      .ok (sampleBlock5.header.TransactionsRoot ==
           sampleRoot (sampleBlock5.Transactions.map (sampleLeaf 87))) := by
  exact ⟨(verifyTransactionsRoot_spec sampleRoot sampleLeaf 87 sampleBlock2).1
           (by decide),
         ((verifyTransactionsRoot_spec sampleRoot sampleLeaf 87 sampleBlock5).2
           (by decide)).1⟩

set_option maxRecDepth 20000 in
/-- C9: CreateBlock computes TransactionBlockLength as the transactions
binary size plus one below the Ng version and plus four from Ng through
Reward; for Protobuf versions no length is computed (the field keeps its
zero value) and the transactions root is stored instead.  The scenario
part: a Plain-version (2) block with no transactions, base target 100 and
an all-zero 32-byte generation signature marshals to bytes whose single
transaction-count byte (offset 121) is zero and decodes back with
TransactionBlockLength 1 and transaction count 0. -/
theorem createBlock_spec (merkleRoot : List Bytes → Bytes)
    (merkleBytes : Scheme → Transaction → Bytes) (fastHash : Bytes → Bytes)
    (txs : List Transaction) (ts : Nat) (parentID : BlockID) (pk : Bytes)
    (nxt : NxtConsensus) (version : Nat) (features : List Int) (rv : Int)
    (scheme : Scheme) (sh : Option Bytes)
    (hsz : transactionsBinarySize txs + 4 < 2 ^ 32) :
    (version < NgBlockVersion →
       (CreateBlock merkleRoot merkleBytes fastHash txs ts parentID pk nxt version
          features rv scheme sh).header.TransactionBlockLength =
         transactionsBinarySize txs + 1) ∧
    (NgBlockVersion ≤ version → version ≤ RewardBlockVersion →
       (CreateBlock merkleRoot merkleBytes fastHash txs ts parentID pk nxt version
          features rv scheme sh).header.TransactionBlockLength =
         transactionsBinarySize txs + 4) ∧
    (ProtobufBlockVersion ≤ version →
       (CreateBlock merkleRoot merkleBytes fastHash txs ts parentID pk nxt version
          features rv scheme sh).header.TransactionBlockLength = 0 ∧
       (CreateBlock merkleRoot merkleBytes fastHash txs ts parentID pk nxt version
          features rv scheme sh).header.TransactionsRoot =
         merkleRoot (txs.map (merkleBytes scheme))) ∧
    (sampleCreated.header.TransactionBlockLength = 1 ∧
     sampleCreated.MarshalBinary 87 = .ok sampleCreatedBytes ∧
     sampleCreatedBytes[121]? = some 0 ∧
     Block.UnmarshalBinary 87 sampleCreatedBytes = .ok sampleDecoded ∧
     sampleDecoded.header.TransactionBlockLength = 1 ∧
     sampleDecoded.header.TransactionCount = 0) := by
  refine ⟨fun h3 => ?_, fun h3 h4 => ?_, fun h5 => ?_,
    ⟨rfl, rfl, rfl, rfl, rfl, rfl⟩⟩
  · simp [CreateBlock, BlockHeader.GenerateBlockID, h3]
    omega
  · have h3' : 3 ≤ version := h3
    have hn3 : ¬ version < NgBlockVersion := by show ¬ version < 3; omega
    simp [CreateBlock, BlockHeader.GenerateBlockID, hn3, h4]
    omega
  · have h5' : 5 ≤ version := h5
    have hn3 : ¬ version < NgBlockVersion := by show ¬ version < 3; omega
    have hn4 : ¬ version ≤ RewardBlockVersion := by show ¬ version ≤ 4; omega
    simp [CreateBlock, BlockHeader.GenerateBlockID, hn3, hn4]

/-- Witness for C9 at concrete inputs: each version regime. -/
theorem createBlock_spec_witness :
    (CreateBlock sampleRoot sampleLeaf sampleHash [[7]] 1
       (NewBlockIDFromSignature zeroSignature) (List.replicate 32 0)
       ⟨100, zeroDigest⟩ 2 [] (-1) 87 none).header.TransactionBlockLength = 6 ∧
    (CreateBlock sampleRoot sampleLeaf sampleHash [[7]] 1
       (NewBlockIDFromSignature zeroSignature) (List.replicate 32 0)
       ⟨100, zeroDigest⟩ 3 [] (-1) 87 none).header.TransactionBlockLength = 9 ∧
    (CreateBlock sampleRoot sampleLeaf sampleHash [[7]] 1
       (NewBlockIDFromDigest zeroDigest) (List.replicate 32 0)
       ⟨100, zeroDigest⟩ 5 [] (-1) 87 none).header.TransactionBlockLength = 0 := by
  refine ⟨?_, ?_, ?_⟩
  · exact (createBlock_spec sampleRoot sampleLeaf sampleHash [[7]] 1
      (NewBlockIDFromSignature zeroSignature) (List.replicate 32 0)
      ⟨100, zeroDigest⟩ 2 [] (-1) 87 none (by decide)).1 (by decide)
  · exact (createBlock_spec sampleRoot sampleLeaf sampleHash [[7]] 1
      (NewBlockIDFromSignature zeroSignature) (List.replicate 32 0)
      ⟨100, zeroDigest⟩ 3 [] (-1) 87 none (by decide)).2.1 (by decide) (by decide)
  · exact ((createBlock_spec sampleRoot sampleLeaf sampleHash [[7]] 1
      (NewBlockIDFromDigest zeroDigest) (List.replicate 32 0)
      ⟨100, zeroDigest⟩ 5 [] (-1) 87 none (by decide)).2.2.1 (by decide)).1

/-- C7: ReadFrom on an untyped (uninitialized) BlockID first attempts 32
bytes and returns the invalid-size error joined with the underlying I/O
error when fewer are available; when the stream ends before a further 32
bytes the ID resolves to the digest variant of the first 32 bytes; when a
further 32 bytes follow it resolves to the signature variant of the 64
bytes read.  On a BlockID already typed as signature or digest, ReadFrom
reads exactly that variant size, with the same joined error on
truncation. -/
theorem blockID_readFrom_spec (s : Bytes) :
    (s.length < 32 →
       ∃ e, (BlockID.zero.ReadFrom s).1 = .error (.invalidSizeJoin e)) ∧
    (32 ≤ s.length → s.length < 64 →
       ∃ id', (BlockID.zero.ReadFrom s).1 = .ok id' ∧
         id'.idType = .digestID ∧ id'.dig = s.take 32 ∧ id'.bytes = s.take 32) ∧
    (64 ≤ s.length →
       ∃ id', (BlockID.zero.ReadFrom s).1 = .ok id' ∧
         id'.idType = .signatureID ∧ id'.bytes = s.take 64 ∧
         (BlockID.zero.ReadFrom s).2 = 64) ∧
    (∀ id : BlockID, id.idType = .signatureID →
       (s.length < 64 → ∃ e, (id.ReadFrom s).1 = .error (.invalidSizeJoin e)) ∧
       (64 ≤ s.length →
          (id.ReadFrom s).1 = .ok { id with sig := s.take 64 } ∧
          (id.ReadFrom s).2 = 64)) ∧
    (∀ id : BlockID, id.idType = .digestID →
       (s.length < 32 → ∃ e, (id.ReadFrom s).1 = .error (.invalidSizeJoin e)) ∧
       (32 ≤ s.length →
          (id.ReadFrom s).1 = .ok { id with dig := s.take 32 } ∧
          (id.ReadFrom s).2 = 32)) := by
  have hlim : (s.take 64).length = min 64 s.length := List.length_take 64 s
  refine ⟨fun hlt => ?_, fun h32 h64 => ?_, fun h64 => ?_, fun id hid => ⟨?_, ?_⟩,
    fun id hid => ⟨?_, ?_⟩⟩
  · have e1 : ∃ e n, readFull 32 (s.take 64) = (s.take 64, n, some e) ∨
        readFull 32 (s.take 64) = ([], n, some e) := by
      unfold readFull
      rw [if_neg (by omega)]
      by_cases h0 : (s.take 64).length = 0
      · exact ⟨.eof, 0, by rw [if_pos h0]; exact Or.inr rfl⟩
      · exact ⟨.unexpectedEOF, (s.take 64).length, by rw [if_neg h0]; exact Or.inl rfl⟩
    obtain ⟨e, n, he⟩ := e1
    refine ⟨e, ?_⟩
    rcases he with he | he <;>
      simp [BlockID.ReadFrom, BlockID.zero, BlockID.readUndefinedFrom, he]
  · have e1 : readFull 32 (s.take 64) = ((s.take 64).take 32, 32, none) := by
      unfold readFull
      rw [if_pos (by omega)]
    have hdl : ((s.take 64).drop 32).length = s.length - 32 := by
      simp [List.length_drop]
      omega
    have htt : (s.take 64).take 32 = s.take 32 := by
      simp [List.take_take]
    have e2 : ∃ bs2 n2 e, readFull 32 ((s.take 64).drop 32) = (bs2, n2, some e) := by
      unfold readFull
      rw [if_neg (by omega)]
      by_cases h0 : ((s.take 64).drop 32).length = 0
      · exact ⟨[], 0, .eof, by rw [if_pos h0]⟩
      · exact ⟨(s.take 64).drop 32, ((s.take 64).drop 32).length, .unexpectedEOF,
          by rw [if_neg h0]⟩
    obtain ⟨bs2, n2, e, he⟩ := e2
    refine ⟨⟨BlockID.zero.sig.take 32 ++ bs2 ++ BlockID.zero.sig.drop (32 + bs2.length),
      s.take 32, .digestID⟩, ?_, rfl, rfl, rfl⟩
    simp [BlockID.ReadFrom, BlockID.zero, BlockID.readUndefinedFrom, e1, he, htt]
  · have e1 : readFull 32 (s.take 64) = ((s.take 64).take 32, 32, none) := by
      unfold readFull
      rw [if_pos (by omega)]
    have hdl : ((s.take 64).drop 32).length = 32 := by
      simp [List.length_drop]
      omega
    have e2 : readFull 32 ((s.take 64).drop 32) =
        (((s.take 64).drop 32).take 32, 32, none) := by
      unfold readFull
      rw [if_pos (by omega)]
    have htd : ((s.take 64).drop 32).take 32 = (s.take 64).drop 32 :=
      List.take_of_length_le (by omega)
    refine ⟨⟨s.take 64, zeroDigest, .signatureID⟩, ?_, rfl, rfl, ?_⟩
    · simp [BlockID.ReadFrom, BlockID.zero, BlockID.readUndefinedFrom, e1, e2, htd,
        List.take_append_drop]
    · simp [BlockID.ReadFrom, BlockID.zero, BlockID.readUndefinedFrom, e1, e2]
  · intro hlt
    have hn : ¬ 64 ≤ s.length := by omega
    by_cases h0 : s.length = 0
    · exact ⟨.eof, by simp [BlockID.ReadFrom, hid, BlockID.readSignatureFrom,
        readFull, hn, h0]⟩
    · exact ⟨.unexpectedEOF, by simp [BlockID.ReadFrom, hid,
        BlockID.readSignatureFrom, readFull, hn, h0]⟩
  · intro h64
    have e1 : readFull 64 s = (s.take 64, 64, none) := by
      unfold readFull
      rw [if_pos (by omega)]
    constructor <;> simp [BlockID.ReadFrom, hid, BlockID.readSignatureFrom, e1]
  · intro hlt
    have hn : ¬ 32 ≤ s.length := by omega
    by_cases h0 : s.length = 0
    · exact ⟨.eof, by simp [BlockID.ReadFrom, hid, BlockID.readDigestFrom,
        readFull, hn, h0]⟩
    · exact ⟨.unexpectedEOF, by simp [BlockID.ReadFrom, hid,
        BlockID.readDigestFrom, readFull, hn, h0]⟩
  · intro h32
    have e1 : readFull 32 s = (s.take 32, 32, none) := by
      unfold readFull
      rw [if_pos (by omega)]
    constructor <;> simp [BlockID.ReadFrom, hid, BlockID.readDigestFrom, e1]

/-- Witness for C7 at concrete inputs: a 40-byte stream on an untyped ID
resolves to a digest of the first 32 bytes; a 10-byte stream fails with the
joined invalid-size error. -/
theorem blockID_readFrom_spec_witness :
    (∃ id', (BlockID.zero.ReadFrom (List.replicate 40 7)).1 = .ok id' ∧
       id'.idType = .digestID ∧ id'.dig = (List.replicate 40 7).take 32 ∧
       id'.bytes = (List.replicate 40 7).take 32) ∧
    (∃ e, (BlockID.zero.ReadFrom (List.replicate 10 7)).1 =
       .error (.invalidSizeJoin e)) := by
  exact ⟨(blockID_readFrom_spec (List.replicate 40 7)).2.1 (by decide) (by decide),
         (blockID_readFrom_spec (List.replicate 10 7)).1 (by decide)⟩

set_option maxHeartbeats 2000000 in
/-- Round trip of the binary codec for versions below Ng: marshal then
unmarshal restores every field, the derived ID regenerated from the decoded
signature. -/
theorem binary_roundtrip_preNg (scheme : Scheme) (b : Block)
    (hv1 : 1 ≤ b.header.Version) (hv3 : b.header.Version < 3)
    (hts : b.header.Timestamp < 2 ^ 64)
    (hbt : b.header.nxt.BaseTarget < 2 ^ 64)
    (hcbl : b.header.ConsensusBlockLength < 2 ^ 32)
    (hpk : b.header.GeneratorPublicKey.length = 32)
    (hsg : b.header.BlockSignature.length = 64)
    (hparent : b.header.Parent.wfb = true)
    (hparentT : b.header.Parent.idType = .signatureID)
    (hgen : b.header.nxt.GenSignature.length = 32)
    (hroot : b.header.TransactionsRoot = [])
    (hsh : b.header.stateHash = none)
    (hch : b.header.challengedHeader = none)
    (htc : b.header.TransactionCount = b.Transactions.length)
    (hcnt : b.Transactions.length < 256)
    (hfe : b.header.Features = [])
    (hfc : b.header.FeaturesCount = 0)
    (hrv : b.header.RewardVote = -1)
    (htbl : b.header.TransactionBlockLength = transactionsBinarySize b.Transactions + 1)
    (hsize : transactionsBinarySize b.Transactions + 250 < 2 ^ 32) :
    ∃ bs, b.MarshalBinary scheme = .ok bs ∧
      Block.UnmarshalBinary scheme bs =
        .ok (b.withID (NewBlockIDFromSignature b.header.BlockSignature)) := by
  obtain ⟨⟨ver, ts, parent, fc, fe, rv, cbl, nxtc, tbl, tc, pk, sg, rt, sh, chh, idf⟩,
    txs⟩ := b
  obtain ⟨bt, gs⟩ := nxtc
  obtain ⟨psig, pdig, ptype⟩ := parent
  simp only at *
  subst hroot hsh hch htc hfe hfc hrv htbl hparentT
  simp only [BlockID.wfb, Bool.and_eq_true, beq_iff_eq] at hparent
  obtain ⟨hps, hpd⟩ := hparent
  subst hpd
  -- abbreviations
  set size := transactionsBinarySize txs with hsizedef
  have hv5 : ¬ ver ≥ ProtobufBlockVersion := by show ¬ ver ≥ 5; omega
  have hng : ¬ ver ≥ NgBlockVersion := by show ¬ ver ≥ 3; omega
  have hng' : ¬ NgBlockVersion ≤ ver := hng
  have hv256 : ver % 256 = ver := Nat.mod_eq_of_lt (by omega)
  have hc256 : txs.length % 256 = txs.length := Nat.mod_eq_of_lt (by omega)
  have htxb : (transactionsToBinary txs).length = size := transactionsToBinary_length txs
  -- the marshalled bytes
  have hmar : Block.MarshalBinary scheme ⟨⟨ver, ts, ⟨psig, zeroDigest, .signatureID⟩,
      0, [], -1, cbl, ⟨bt, gs⟩, size + 1, txs.length, pk, sg, [], none, none, idf⟩, txs⟩ =
      .ok ((ver :: (beBytes 8 ts ++ (psig ++ (beBytes 4 cbl ++ (beBytes 8 bt ++ (gs ++
        (beBytes 4 (size + 1) ++ (txs.length :: (transactionsToBinary txs ++
          (pk ++ sg)))))))))) : Bytes) := by
    unfold Block.MarshalBinary Block.WriteToWithoutSignature
    rw [if_neg hv5]
    rw [if_neg (by simp [BlockID.bytes, hps, signatureSize])]
    rw [if_neg hng, if_neg hng]
    simp [BlockID.bytes, hv256, hc256, List.append_assoc]
  refine ⟨_, hmar, ?_⟩
  -- decode, after making the encoded bytes opaque
  generalize hdd : (ver :: (beBytes 8 ts ++ (psig ++ (beBytes 4 cbl ++ (beBytes 8 bt ++
    (gs ++ (beBytes 4 (size + 1) ++ (txs.length :: (transactionsToBinary txs ++
      (pk ++ sg))))))))) : Bytes) = data
  have hdatadef : data = ver :: (beBytes 8 ts ++ (psig ++ (beBytes 4 cbl ++ (beBytes 8 bt ++
    (gs ++ (beBytes 4 (size + 1) ++ (txs.length :: (transactionsToBinary txs ++
      (pk ++ sg))))))))) := hdd.symm
  have hidx0 : indexE data 0 = .ok ver :=
    indexE_app (x := []) ver (beBytes 8 ts ++ (psig ++ (beBytes 4 cbl ++ (beBytes 8 bt ++
      (gs ++ (beBytes 4 (size + 1) ++ (txs.length :: (transactionsToBinary txs ++
        (pk ++ sg)))))))))
      (by simp [hdatadef]) rfl
  have h19 : sliceE data 1 9 = .ok (beBytes 8 ts) :=
    sliceE_eq (x := [ver]) (z := psig ++ (beBytes 4 cbl ++ (beBytes 8 bt ++ (gs ++
      (beBytes 4 (size + 1) ++ (txs.length :: (transactionsToBinary txs ++ (pk ++ sg))))))))
      (by simp [hdatadef]) rfl (by simp) (by omega)
  have h973 : sliceE data 9 73 = .ok psig :=
    sliceE_eq (x := [ver] ++ beBytes 8 ts) (z := beBytes 4 cbl ++ (beBytes 8 bt ++ (gs ++
      (beBytes 4 (size + 1) ++ (txs.length :: (transactionsToBinary txs ++ (pk ++ sg)))))))
      (by simp [hdatadef]) (by simp) (by simp [hps]) (by omega)
  have h7377 : sliceE data 73 77 = .ok (beBytes 4 cbl) :=
    sliceE_eq (x := [ver] ++ beBytes 8 ts ++ psig) (z := beBytes 8 bt ++ (gs ++
      (beBytes 4 (size + 1) ++ (txs.length :: (transactionsToBinary txs ++ (pk ++ sg))))))
      (by simp [hdatadef]) (by simp [hps]) (by simp) (by omega)
  have h7785 : sliceE data 77 85 = .ok (beBytes 8 bt) :=
    sliceE_eq (x := [ver] ++ beBytes 8 ts ++ psig ++ beBytes 4 cbl) (z := gs ++
      (beBytes 4 (size + 1) ++ (txs.length :: (transactionsToBinary txs ++ (pk ++ sg)))))
      (by simp [hdatadef]) (by simp [hps]) (by simp) (by omega)
  have h85117 : sliceE data 85 117 = .ok gs :=
    sliceE_eq (x := [ver] ++ beBytes 8 ts ++ psig ++ beBytes 4 cbl ++ beBytes 8 bt)
      (z := beBytes 4 (size + 1) ++ (txs.length :: (transactionsToBinary txs ++ (pk ++ sg))))
      (by simp [hdatadef]) (by simp [hps]) (by simp [hgen]) (by omega)
  have h117121 : sliceE data 117 121 = .ok (beBytes 4 (size + 1)) :=
    sliceE_eq (x := [ver] ++ beBytes 8 ts ++ psig ++ beBytes 4 cbl ++ beBytes 8 bt ++ gs)
      (z := txs.length :: (transactionsToBinary txs ++ (pk ++ sg)))
      (by simp [hdatadef]) (by simp [hps, hgen]) (by simp) (by omega)
  have hidx121 : indexE data 121 = .ok txs.length :=
    indexE_app (x := [ver] ++ beBytes 8 ts ++ psig ++ beBytes 4 cbl ++ beBytes 8 bt ++ gs ++
      beBytes 4 (size + 1)) txs.length (transactionsToBinary txs ++ (pk ++ sg))
      (by simp [hdatadef]) (by simp [hps, hgen])
  have hbts : beVal (beBytes 8 ts) = ts := beVal_beBytes_of_lt (by rw [pow256_8]; omega)
  have hbbt : beVal (beBytes 8 bt) = bt := beVal_beBytes_of_lt (by rw [pow256_8]; omega)
  have hbcbl : beVal (beBytes 4 cbl) = cbl := beVal_beBytes_of_lt (by rw [pow256_4]; omega)
  have hbtbl : beVal (beBytes 4 (size + 1)) = size + 1 :=
    beVal_beBytes_of_lt (by rw [pow256_4]; omega)
  have hend : (122 + (size + 1) - 1) % 2 ^ 32 = 122 + size := by
    omega
  have htrans : sliceE data 122 (122 + size) = .ok (transactionsToBinary txs) :=
    sliceE_eq (x := [ver] ++ beBytes 8 ts ++ psig ++ beBytes 4 cbl ++ beBytes 8 bt ++ gs ++
      beBytes 4 (size + 1) ++ [txs.length]) (z := pk ++ sg)
      (by simp [hdatadef]) (by simp [hps, hgen]) (by simp [htxb]) (by omega)
  have hbtx : bytesToTransactions txs.length (transactionsToBinary txs) = .ok txs := by
    have := bytesToTransactions_rt txs []
      (fun t ht => by have := mem_le_binarySize ht; omega)
    simpa using this
  have hdlen : data.length = 218 + size := by
    simp [hdatadef, hps, hgen, hpk, hsg, htxb]
    omega
  have hpkslice : sliceE data (data.length - 96) (data.length - 64) = .ok pk :=
    sliceE_eq (x := [ver] ++ beBytes 8 ts ++ psig ++ beBytes 4 cbl ++ beBytes 8 bt ++ gs ++
      beBytes 4 (size + 1) ++ [txs.length] ++ transactionsToBinary txs) (z := sg)
      (by simp [hdatadef]) (by simp [hps, hgen, htxb]; omega)
      (by simp [hpk]; omega) (by omega)
  have hsgslice : sliceE data (data.length - 64) data.length = .ok sg :=
    sliceE_eq (x := [ver] ++ beBytes 8 ts ++ psig ++ beBytes 4 cbl ++ beBytes 8 bt ++ gs ++
      beBytes 4 (size + 1) ++ [txs.length] ++ transactionsToBinary txs ++ pk) (z := [])
      (by simp [hdatadef]) (by simp [hps, hgen, htxb, hpk]; omega)
      (by simp [hsg]; omega) (by omega)
  have h11 : ¬ (size + 1 < 1) := by omega
  have hpid : NewBlockIDFromBytes psig =
      .ok (⟨psig, zeroDigest, .signatureID⟩ : BlockID) := by
    have hw : (⟨psig, zeroDigest, .signatureID⟩ : BlockID).wfb = true := by
      simp [BlockID.wfb, hps]
    simpa [BlockID.bytes] using newBlockIDFromBytes_bytes hw
  have hcore : Block.UnmarshalBinaryCore scheme data =
      .ok ⟨⟨ver, ts, ⟨psig, zeroDigest, .signatureID⟩, 0, [], -1, cbl, ⟨bt, gs⟩,
        size + 1, txs.length, pk, sg, [], none, none, NewBlockIDFromSignature sg⟩,
        txs⟩ := by
    unfold Block.UnmarshalBinaryCore
    simp only [hidx0, h19, h973, h7377, h7785, h85117, h117121, hidx121, ebind_ok,
      hpid, liftMsg, hbts, hbbt, hbcbl, hbtbl, if_neg hv5, if_neg hng', if_neg h11,
      hend, htrans, hbtx, hpkslice, hsgslice]
  unfold Block.UnmarshalBinary
  rw [hcore]
  rfl

set_option maxHeartbeats 2000000 in
/-- Round trip of the binary codec for the Ng and Reward versions: marshal
then unmarshal restores every field, the derived ID regenerated from the
decoded signature. -/
theorem binary_roundtrip_ng (scheme : Scheme) (b : Block)
    (hv3 : 3 ≤ b.header.Version) (hv5 : b.header.Version < 5)
    (hts : b.header.Timestamp < 2 ^ 64)
    (hbt : b.header.nxt.BaseTarget < 2 ^ 64)
    (hcbl : b.header.ConsensusBlockLength < 2 ^ 32)
    (hpk : b.header.GeneratorPublicKey.length = 32)
    (hsg : b.header.BlockSignature.length = 64)
    (hparent : b.header.Parent.wfb = true)
    (hparentT : b.header.Parent.idType = .signatureID)
    (hgen : b.header.nxt.GenSignature.length = 32)
    (hroot : b.header.TransactionsRoot = [])
    (hsh : b.header.stateHash = none)
    (hch : b.header.challengedHeader = none)
    (htc : b.header.TransactionCount = b.Transactions.length)
    (hfeat : ∀ f ∈ b.header.Features, -(2 ^ 15) ≤ f ∧ f < 2 ^ 15)
    (hfc : b.header.FeaturesCount = b.header.Features.length)
    (hrvlo : -(2 ^ 63) ≤ b.header.RewardVote) (hrvhi : b.header.RewardVote < 2 ^ 63)
    (hrv3 : b.header.Version < 4 → b.header.RewardVote = -1)
    (htbl : b.header.TransactionBlockLength = transactionsBinarySize b.Transactions + 4)
    (hsize : transactionsBinarySize b.Transactions +
      2 * b.header.Features.length + 250 < 2 ^ 32) :
    ∃ bs, b.MarshalBinary scheme = .ok bs ∧
      Block.UnmarshalBinary scheme bs =
        .ok (b.withID (NewBlockIDFromSignature b.header.BlockSignature)) := by
  obtain ⟨⟨ver, ts, parent, fc, fe, rv, cbl, nxtc, tbl, tc, pk, sg, rt, sh, chh, idf⟩,
    txs⟩ := b
  obtain ⟨bt, gs⟩ := nxtc
  obtain ⟨psig, pdig, ptype⟩ := parent
  simp only at *
  subst hroot hsh hch htc hfc htbl hparentT
  simp only [BlockID.wfb, Bool.and_eq_true, beq_iff_eq] at hparent
  obtain ⟨hps, hpd⟩ := hparent
  subst hpd
  set size := transactionsBinarySize txs with hsizedef
  set flen := fe.length with hflendef
  have hcnt32 : txs.length < 2 ^ 32 := by
    have := transactionsBinarySize_ge txs
    omega
  have hv5' : ¬ ver ≥ ProtobufBlockVersion := by show ¬ ver ≥ 5; omega
  have hngle : ver ≥ NgBlockVersion := hv3
  have htxb : (transactionsToBinary txs).length = size := transactionsToBinary_length txs
  have hfb : (featuresToBinary fe).length = 2 * flen := featuresToBinary_length fe
  have hv256 : ver % 256 = ver := Nat.mod_eq_of_lt (by omega)
  have hpid : NewBlockIDFromBytes psig =
      .ok (⟨psig, zeroDigest, .signatureID⟩ : BlockID) := by
    have hw : (⟨psig, zeroDigest, .signatureID⟩ : BlockID).wfb = true := by
      simp [BlockID.wfb, hps]
    simpa [BlockID.bytes] using newBlockIDFromBytes_bytes hw
  have hbts : beVal (beBytes 8 ts) = ts := beVal_beBytes_of_lt (by rw [pow256_8]; omega)
  have hbbt : beVal (beBytes 8 bt) = bt := beVal_beBytes_of_lt (by rw [pow256_8]; omega)
  have hbcbl : beVal (beBytes 4 cbl) = cbl := beVal_beBytes_of_lt (by rw [pow256_4]; omega)
  have hbtbl : beVal (beBytes 4 (size + 4)) = size + 4 :=
    beVal_beBytes_of_lt (by rw [pow256_4]; omega)
  have hbcnt : beVal (beBytes 4 txs.length) = txs.length :=
    beVal_beBytes_of_lt (by rw [pow256_4]; omega)
  have hbfc : beVal (beBytes 4 flen) = flen :=
    beVal_beBytes_of_lt (by rw [pow256_4]; omega)
  have h44 : ¬ (size + 4 < 4) := by omega
  have hfeatrt : featuresFromBinary (featuresToBinary fe) = fe :=
    featuresFromBinary_rt fe hfeat
  have hfeTake : (fe ++ List.replicate flen 0).take flen = fe := by
    rw [hflendef]
    exact List.take_left fe (List.replicate fe.length 0)
  have hbtx : bytesToTransactions txs.length (transactionsToBinary txs) = .ok txs := by
    have := bytesToTransactions_rt txs []
      (fun t ht => by have := mem_le_binarySize ht; omega)
    simpa using this
  have hm1 : (121 + (size + 4)) % 2 ^ 32 = 125 + size := by omega
  have hm2 : (125 + size + 4) % 2 ^ 32 = 129 + size := by omega
  have hm3 : (2 * flen) % 2 ^ 32 = 2 * flen := by omega
  have hm4 : (129 + size + 2 * flen) % 2 ^ 32 = 129 + size + 2 * flen := by omega
  by_cases hv4 : RewardBlockVersion ≤ ver
  · -- Reward version: the reward vote is written and read back
    have hmar : Block.MarshalBinary scheme ⟨⟨ver, ts, ⟨psig, zeroDigest, .signatureID⟩,
        flen, fe, rv, cbl, ⟨bt, gs⟩, size + 4, txs.length, pk, sg, [], none, none, idf⟩,
        txs⟩ =
        .ok ((ver :: (beBytes 8 ts ++ (psig ++ (beBytes 4 cbl ++ (beBytes 8 bt ++ (gs ++
          (beBytes 4 (size + 4) ++ (beBytes 4 txs.length ++ (transactionsToBinary txs ++
            (beBytes 4 flen ++ (featuresToBinary fe ++ (beBytes 8 (u64OfI64 rv) ++
              (pk ++ sg))))))))))))) : Bytes) := by
      unfold Block.MarshalBinary Block.WriteToWithoutSignature
      rw [if_neg hv5']
      rw [if_neg (by simp [BlockID.bytes, hps, signatureSize])]
      rw [if_pos hngle, if_pos hngle, if_pos hv4]
      simp [BlockID.bytes, hv256, List.append_assoc]
    refine ⟨_, hmar, ?_⟩
    generalize hdd : ((ver :: (beBytes 8 ts ++ (psig ++ (beBytes 4 cbl ++ (beBytes 8 bt ++
      (gs ++ (beBytes 4 (size + 4) ++ (beBytes 4 txs.length ++ (transactionsToBinary txs ++
        (beBytes 4 flen ++ (featuresToBinary fe ++ (beBytes 8 (u64OfI64 rv) ++
          (pk ++ sg))))))))))))) : Bytes) = data
    have hdatadef : data = ver :: (beBytes 8 ts ++ (psig ++ (beBytes 4 cbl ++ (beBytes 8 bt ++
      (gs ++ (beBytes 4 (size + 4) ++ (beBytes 4 txs.length ++ (transactionsToBinary txs ++
        (beBytes 4 flen ++ (featuresToBinary fe ++ (beBytes 8 (u64OfI64 rv) ++
          (pk ++ sg)))))))))))) := hdd.symm
    have hdlen : data.length = 233 + size + 2 * flen := by
      rw [hdatadef]
      simp [hps, hgen, htxb, hfb, hpk, hsg]
      omega
    have hidx0 : indexE data 0 = .ok ver :=
      indexE_app (x := []) ver _ (by rw [hdatadef]; rfl) rfl
    have h19 : sliceE data 1 9 = .ok (beBytes 8 ts) :=
      sliceE_eq (x := [ver]) (z := psig ++ (beBytes 4 cbl ++ (beBytes 8 bt ++ (gs ++
        (beBytes 4 (size + 4) ++ (beBytes 4 txs.length ++ (transactionsToBinary txs ++
          (beBytes 4 flen ++ (featuresToBinary fe ++ (beBytes 8 (u64OfI64 rv) ++
            (pk ++ sg)))))))))))
        (by simp [hdatadef]) rfl (by simp) (by omega)
    have h973 : sliceE data 9 73 = .ok psig :=
      sliceE_eq (x := [ver] ++ beBytes 8 ts) (z := beBytes 4 cbl ++ (beBytes 8 bt ++ (gs ++
        (beBytes 4 (size + 4) ++ (beBytes 4 txs.length ++ (transactionsToBinary txs ++
          (beBytes 4 flen ++ (featuresToBinary fe ++ (beBytes 8 (u64OfI64 rv) ++
            (pk ++ sg))))))))))
        (by simp [hdatadef]) (by simp) (by simp [hps]) (by omega)
    have h7377 : sliceE data 73 77 = .ok (beBytes 4 cbl) :=
      sliceE_eq (x := [ver] ++ beBytes 8 ts ++ psig) (z := beBytes 8 bt ++ (gs ++
        (beBytes 4 (size + 4) ++ (beBytes 4 txs.length ++ (transactionsToBinary txs ++
          (beBytes 4 flen ++ (featuresToBinary fe ++ (beBytes 8 (u64OfI64 rv) ++
            (pk ++ sg)))))))))
        (by simp [hdatadef]) (by simp [hps]) (by simp) (by omega)
    have h7785 : sliceE data 77 85 = .ok (beBytes 8 bt) :=
      sliceE_eq (x := [ver] ++ beBytes 8 ts ++ psig ++ beBytes 4 cbl) (z := gs ++
        (beBytes 4 (size + 4) ++ (beBytes 4 txs.length ++ (transactionsToBinary txs ++
          (beBytes 4 flen ++ (featuresToBinary fe ++ (beBytes 8 (u64OfI64 rv) ++
            (pk ++ sg))))))))
        (by simp [hdatadef]) (by simp [hps]) (by simp) (by omega)
    have h85117 : sliceE data 85 117 = .ok gs :=
      sliceE_eq (x := [ver] ++ beBytes 8 ts ++ psig ++ beBytes 4 cbl ++ beBytes 8 bt)
        (z := beBytes 4 (size + 4) ++ (beBytes 4 txs.length ++ (transactionsToBinary txs ++
          (beBytes 4 flen ++ (featuresToBinary fe ++ (beBytes 8 (u64OfI64 rv) ++
            (pk ++ sg)))))))
        (by simp [hdatadef]) (by simp [hps]) (by simp [hgen]) (by omega)
    have h117121 : sliceE data 117 121 = .ok (beBytes 4 (size + 4)) :=
      sliceE_eq (x := [ver] ++ beBytes 8 ts ++ psig ++ beBytes 4 cbl ++ beBytes 8 bt ++ gs)
        (z := beBytes 4 txs.length ++ (transactionsToBinary txs ++
          (beBytes 4 flen ++ (featuresToBinary fe ++ (beBytes 8 (u64OfI64 rv) ++
            (pk ++ sg))))))
        (by simp [hdatadef]) (by simp [hps, hgen]) (by simp) (by omega)
    have h121125 : sliceE data 121 125 = .ok (beBytes 4 txs.length) :=
      sliceE_eq (x := [ver] ++ beBytes 8 ts ++ psig ++ beBytes 4 cbl ++ beBytes 8 bt ++ gs ++
        beBytes 4 (size + 4))
        (z := transactionsToBinary txs ++ (beBytes 4 flen ++ (featuresToBinary fe ++
          (beBytes 8 (u64OfI64 rv) ++ (pk ++ sg)))))
        (by simp [hdatadef]) (by simp [hps, hgen]) (by simp) (by omega)
    have htrans : sliceE data 125 (125 + size) = .ok (transactionsToBinary txs) :=
      sliceE_eq (x := [ver] ++ beBytes 8 ts ++ psig ++ beBytes 4 cbl ++ beBytes 8 bt ++ gs ++
        beBytes 4 (size + 4) ++ beBytes 4 txs.length)
        (z := beBytes 4 flen ++ (featuresToBinary fe ++ (beBytes 8 (u64OfI64 rv) ++
          (pk ++ sg))))
        (by simp [hdatadef]) (by simp [hps, hgen]) (by simp [htxb]) (by omega)
    have hfcnt : sliceE data (125 + size) (129 + size) = .ok (beBytes 4 flen) :=
      sliceE_eq (x := [ver] ++ beBytes 8 ts ++ psig ++ beBytes 4 cbl ++ beBytes 8 bt ++ gs ++
        beBytes 4 (size + 4) ++ beBytes 4 txs.length ++ transactionsToBinary txs)
        (z := featuresToBinary fe ++ (beBytes 8 (u64OfI64 rv) ++ (pk ++ sg)))
        (by simp [hdatadef]) (by simp [hps, hgen, htxb]; omega) (by simp; omega)
        (by omega)
    have hfdata : sliceE data (129 + size) (129 + size + 2 * flen) =
        .ok (featuresToBinary fe) :=
      sliceE_eq (x := [ver] ++ beBytes 8 ts ++ psig ++ beBytes 4 cbl ++ beBytes 8 bt ++ gs ++
        beBytes 4 (size + 4) ++ beBytes 4 txs.length ++ transactionsToBinary txs ++
        beBytes 4 flen)
        (z := beBytes 8 (u64OfI64 rv) ++ (pk ++ sg))
        (by simp [hdatadef]) (by simp [hps, hgen, htxb]; omega)
        (by simp only [hfb]; omega) (by omega)
    have hm5 : (129 + size + 2 * flen + 8) % 2 ^ 32 = 137 + size + 2 * flen := by omega
    have hrvs : sliceE data (129 + size + 2 * flen) (137 + size + 2 * flen) =
        .ok (beBytes 8 (u64OfI64 rv)) :=
      sliceE_eq (x := [ver] ++ beBytes 8 ts ++ psig ++ beBytes 4 cbl ++ beBytes 8 bt ++ gs ++
        beBytes 4 (size + 4) ++ beBytes 4 txs.length ++ transactionsToBinary txs ++
        beBytes 4 flen ++ featuresToBinary fe)
        (z := pk ++ sg)
        (by simp [hdatadef]) (by simp [hps, hgen, htxb, hfb]; omega)
        (by simp; omega) (by omega)
    have hbrv : beVal (beBytes 8 (u64OfI64 rv)) = u64OfI64 rv :=
      beVal_beBytes_of_lt (by rw [pow256_8]; exact u64OfI64_lt rv)
    have hi64 : i64OfU64 (u64OfI64 rv) = rv := i64OfU64_u64OfI64 hrvlo hrvhi
    have hpkslice : sliceE data (data.length - 96) (data.length - 64) = .ok pk :=
      sliceE_eq (x := [ver] ++ beBytes 8 ts ++ psig ++ beBytes 4 cbl ++ beBytes 8 bt ++ gs ++
        beBytes 4 (size + 4) ++ beBytes 4 txs.length ++ transactionsToBinary txs ++
        beBytes 4 flen ++ featuresToBinary fe ++ beBytes 8 (u64OfI64 rv))
        (z := sg)
        (by simp [hdatadef]) (by rw [hdlen]; simp [hps, hgen, htxb, hfb]; omega)
        (by rw [hdlen]; simp [hpk]; omega) (by rw [hdlen]; omega)
    have hsgslice : sliceE data (data.length - 64) data.length = .ok sg :=
      sliceE_eq (x := [ver] ++ beBytes 8 ts ++ psig ++ beBytes 4 cbl ++ beBytes 8 bt ++ gs ++
        beBytes 4 (size + 4) ++ beBytes 4 txs.length ++ transactionsToBinary txs ++
        beBytes 4 flen ++ featuresToBinary fe ++ beBytes 8 (u64OfI64 rv) ++ pk)
        (z := [])
        (by simp [hdatadef]) (by rw [hdlen]; simp [hps, hgen, htxb, hfb, hpk]; omega)
        (by rw [hdlen]; simp [hsg]; omega) (by rw [hdlen]; omega)
    have hcore : Block.UnmarshalBinaryCore scheme data =
        .ok ⟨⟨ver, ts, ⟨psig, zeroDigest, .signatureID⟩, flen, fe, rv, cbl, ⟨bt, gs⟩,
          size + 4, txs.length, pk, sg, [], none, none, NewBlockIDFromSignature sg⟩,
          txs⟩ := by
      unfold Block.UnmarshalBinaryCore
      simp only [hidx0, h19, h973, h7377, h7785, h85117, h117121, h121125, ebind_ok,
        hpid, liftMsg, hbts, hbbt, hbcbl, hbtbl, hbcnt, hbfc, if_neg hv5',
        if_pos hngle, if_neg h44, if_pos hv4, hm1, hm2, hm3, hm4, hm5, htrans, hbtx,
        hfcnt, hfdata, hfeatrt, hfeTake, hrvs, hbrv, hi64, hpkslice, hsgslice]
    unfold Block.UnmarshalBinary
    rw [hcore]
    rfl
  · -- Ng version: no reward vote on the wire, decoded as -1
    have hrv : rv = -1 := by
      have hv4' : ¬ 4 ≤ ver := hv4
      exact hrv3 (by omega)
    subst hrv
    have hmar : Block.MarshalBinary scheme ⟨⟨ver, ts, ⟨psig, zeroDigest, .signatureID⟩,
        flen, fe, -1, cbl, ⟨bt, gs⟩, size + 4, txs.length, pk, sg, [], none, none, idf⟩,
        txs⟩ =
        .ok ((ver :: (beBytes 8 ts ++ (psig ++ (beBytes 4 cbl ++ (beBytes 8 bt ++ (gs ++
          (beBytes 4 (size + 4) ++ (beBytes 4 txs.length ++ (transactionsToBinary txs ++
            (beBytes 4 flen ++ (featuresToBinary fe ++
              (pk ++ sg)))))))))))) : Bytes) := by
      unfold Block.MarshalBinary Block.WriteToWithoutSignature
      rw [if_neg hv5']
      rw [if_neg (by simp [BlockID.bytes, hps, signatureSize])]
      rw [if_pos hngle, if_pos hngle, if_neg hv4]
      simp [BlockID.bytes, hv256, List.append_assoc]
    refine ⟨_, hmar, ?_⟩
    generalize hdd : ((ver :: (beBytes 8 ts ++ (psig ++ (beBytes 4 cbl ++ (beBytes 8 bt ++
      (gs ++ (beBytes 4 (size + 4) ++ (beBytes 4 txs.length ++ (transactionsToBinary txs ++
        (beBytes 4 flen ++ (featuresToBinary fe ++ (pk ++ sg)))))))))))) : Bytes) = data
    have hdatadef : data = ver :: (beBytes 8 ts ++ (psig ++ (beBytes 4 cbl ++ (beBytes 8 bt ++
      (gs ++ (beBytes 4 (size + 4) ++ (beBytes 4 txs.length ++ (transactionsToBinary txs ++
        (beBytes 4 flen ++ (featuresToBinary fe ++ (pk ++ sg))))))))))) := hdd.symm
    have hdlen : data.length = 225 + size + 2 * flen := by
      rw [hdatadef]
      simp [hps, hgen, htxb, hfb, hpk, hsg]
      omega
    have hidx0 : indexE data 0 = .ok ver :=
      indexE_app (x := []) ver _ (by rw [hdatadef]; rfl) rfl
    have h19 : sliceE data 1 9 = .ok (beBytes 8 ts) :=
      sliceE_eq (x := [ver]) (z := psig ++ (beBytes 4 cbl ++ (beBytes 8 bt ++ (gs ++
        (beBytes 4 (size + 4) ++ (beBytes 4 txs.length ++ (transactionsToBinary txs ++
          (beBytes 4 flen ++ (featuresToBinary fe ++ (pk ++ sg))))))))))
        (by simp [hdatadef]) rfl (by simp) (by omega)
    have h973 : sliceE data 9 73 = .ok psig :=
      sliceE_eq (x := [ver] ++ beBytes 8 ts) (z := beBytes 4 cbl ++ (beBytes 8 bt ++ (gs ++
        (beBytes 4 (size + 4) ++ (beBytes 4 txs.length ++ (transactionsToBinary txs ++
          (beBytes 4 flen ++ (featuresToBinary fe ++ (pk ++ sg)))))))))
        (by simp [hdatadef]) (by simp) (by simp [hps]) (by omega)
    have h7377 : sliceE data 73 77 = .ok (beBytes 4 cbl) :=
      sliceE_eq (x := [ver] ++ beBytes 8 ts ++ psig) (z := beBytes 8 bt ++ (gs ++
        (beBytes 4 (size + 4) ++ (beBytes 4 txs.length ++ (transactionsToBinary txs ++
          (beBytes 4 flen ++ (featuresToBinary fe ++ (pk ++ sg))))))))
        (by simp [hdatadef]) (by simp [hps]) (by simp) (by omega)
    have h7785 : sliceE data 77 85 = .ok (beBytes 8 bt) :=
      sliceE_eq (x := [ver] ++ beBytes 8 ts ++ psig ++ beBytes 4 cbl) (z := gs ++
        (beBytes 4 (size + 4) ++ (beBytes 4 txs.length ++ (transactionsToBinary txs ++
          (beBytes 4 flen ++ (featuresToBinary fe ++ (pk ++ sg)))))))
        (by simp [hdatadef]) (by simp [hps]) (by simp) (by omega)
    have h85117 : sliceE data 85 117 = .ok gs :=
      sliceE_eq (x := [ver] ++ beBytes 8 ts ++ psig ++ beBytes 4 cbl ++ beBytes 8 bt)
        (z := beBytes 4 (size + 4) ++ (beBytes 4 txs.length ++ (transactionsToBinary txs ++
          (beBytes 4 flen ++ (featuresToBinary fe ++ (pk ++ sg))))))
        (by simp [hdatadef]) (by simp [hps]) (by simp [hgen]) (by omega)
    have h117121 : sliceE data 117 121 = .ok (beBytes 4 (size + 4)) :=
      sliceE_eq (x := [ver] ++ beBytes 8 ts ++ psig ++ beBytes 4 cbl ++ beBytes 8 bt ++ gs)
        (z := beBytes 4 txs.length ++ (transactionsToBinary txs ++
          (beBytes 4 flen ++ (featuresToBinary fe ++ (pk ++ sg)))))
        (by simp [hdatadef]) (by simp [hps, hgen]) (by simp) (by omega)
    have h121125 : sliceE data 121 125 = .ok (beBytes 4 txs.length) :=
      sliceE_eq (x := [ver] ++ beBytes 8 ts ++ psig ++ beBytes 4 cbl ++ beBytes 8 bt ++ gs ++
        beBytes 4 (size + 4))
        (z := transactionsToBinary txs ++ (beBytes 4 flen ++ (featuresToBinary fe ++
          (pk ++ sg))))
        (by simp [hdatadef]) (by simp [hps, hgen]) (by simp) (by omega)
    have htrans : sliceE data 125 (125 + size) = .ok (transactionsToBinary txs) :=
      sliceE_eq (x := [ver] ++ beBytes 8 ts ++ psig ++ beBytes 4 cbl ++ beBytes 8 bt ++ gs ++
        beBytes 4 (size + 4) ++ beBytes 4 txs.length)
        (z := beBytes 4 flen ++ (featuresToBinary fe ++ (pk ++ sg)))
        (by simp [hdatadef]) (by simp [hps, hgen]) (by simp [htxb]) (by omega)
    have hfcnt : sliceE data (125 + size) (129 + size) = .ok (beBytes 4 flen) :=
      sliceE_eq (x := [ver] ++ beBytes 8 ts ++ psig ++ beBytes 4 cbl ++ beBytes 8 bt ++ gs ++
        beBytes 4 (size + 4) ++ beBytes 4 txs.length ++ transactionsToBinary txs)
        (z := featuresToBinary fe ++ (pk ++ sg))
        (by simp [hdatadef]) (by simp [hps, hgen, htxb]; omega) (by simp; omega)
        (by omega)
    have hfdata : sliceE data (129 + size) (129 + size + 2 * flen) =
        .ok (featuresToBinary fe) :=
      sliceE_eq (x := [ver] ++ beBytes 8 ts ++ psig ++ beBytes 4 cbl ++ beBytes 8 bt ++ gs ++
        beBytes 4 (size + 4) ++ beBytes 4 txs.length ++ transactionsToBinary txs ++
        beBytes 4 flen)
        (z := pk ++ sg)
        (by simp [hdatadef]) (by simp [hps, hgen, htxb]; omega)
        (by simp only [hfb]; omega) (by omega)
    have hpkslice : sliceE data (data.length - 96) (data.length - 64) = .ok pk :=
      sliceE_eq (x := [ver] ++ beBytes 8 ts ++ psig ++ beBytes 4 cbl ++ beBytes 8 bt ++ gs ++
        beBytes 4 (size + 4) ++ beBytes 4 txs.length ++ transactionsToBinary txs ++
        beBytes 4 flen ++ featuresToBinary fe)
        (z := sg)
        (by simp [hdatadef]) (by rw [hdlen]; simp [hps, hgen, htxb, hfb]; omega)
        (by rw [hdlen]; simp [hpk]; omega) (by rw [hdlen]; omega)
    have hsgslice : sliceE data (data.length - 64) data.length = .ok sg :=
      sliceE_eq (x := [ver] ++ beBytes 8 ts ++ psig ++ beBytes 4 cbl ++ beBytes 8 bt ++ gs ++
        beBytes 4 (size + 4) ++ beBytes 4 txs.length ++ transactionsToBinary txs ++
        beBytes 4 flen ++ featuresToBinary fe ++ pk)
        (z := [])
        (by simp [hdatadef]) (by rw [hdlen]; simp [hps, hgen, htxb, hfb, hpk]; omega)
        (by rw [hdlen]; simp [hsg]; omega) (by rw [hdlen]; omega)
    have hcore : Block.UnmarshalBinaryCore scheme data =
        .ok ⟨⟨ver, ts, ⟨psig, zeroDigest, .signatureID⟩, flen, fe, -1, cbl, ⟨bt, gs⟩,
          size + 4, txs.length, pk, sg, [], none, none, NewBlockIDFromSignature sg⟩,
          txs⟩ := by
      unfold Block.UnmarshalBinaryCore
      simp only [hidx0, h19, h973, h7377, h7785, h85117, h117121, h121125, ebind_ok,
        hpid, liftMsg, hbts, hbbt, hbcbl, hbtbl, hbcnt, hbfc, if_neg hv5',
        if_pos hngle, if_neg h44, if_neg hv4, hm1, hm2, hm3, hm4, htrans, hbtx,
        hfcnt, hfdata, hfeatrt, hfeTake, hpkslice, hsgslice]
    unfold Block.UnmarshalBinary
    rw [hcore]
    rfl

theorem readN_exact {x : Bytes} (y : Bytes) {n : Nat} (h : x.length = n) :
    readN n (x ++ y) = some (x, y) := by
  unfold readN
  rw [if_pos (by simp [List.length_append]; omega)]
  rw [take_app _ h, drop_app _ h]

theorem readNat_exact {w v : Nat} (y : Bytes) (h : v < 256 ^ w) :
    readNat w (beBytes w v ++ y) = some (v, y) := by
  unfold readNat
  rw [readN_exact y (beBytes_length w v)]
  simp [beVal_beBytes_of_lt h]

theorem readLP_exact {x : Bytes} (y : Bytes) (h : x.length < 2 ^ 32) :
    readLP (lenPref x ++ y) = some (x, y) := by
  unfold readLP lenPref
  rw [show beBytes 4 x.length ++ x ++ y = beBytes 4 x.length ++ (x ++ y) from by simp]
  rw [readNat_exact (x ++ y) (by rw [pow256_4]; omega)]
  simp [readN_exact y rfl]

theorem readMany_nat_exact (vs : List Nat) (y : Bytes) (h : ∀ v ∈ vs, v < 2 ^ 32) :
    readMany (readNat 4) vs.length ((vs.map (beBytes 4)).flatten ++ y) = some (vs, y) := by
  induction vs with
  | nil => rfl
  | cons v vs ih =>
      show readMany _ (vs.length + 1) _ = _
      unfold readMany
      rw [show (List.map (beBytes 4) (v :: vs)).flatten ++ y =
          beBytes 4 v ++ ((List.map (beBytes 4) vs).flatten ++ y) from by
        simp [List.flatten]]
      rw [readNat_exact _ (by rw [pow256_4]; exact h v (by simp))]
      simp only [obind_some]
      rw [ih (fun u hu => h u (by simp [hu]))]
      rfl

theorem readMany_lp_exact (txs : List Bytes) (y : Bytes)
    (h : ∀ t ∈ txs, t.length < 2 ^ 32) :
    readMany readLP txs.length ((txs.map lenPref).flatten ++ y) = some (txs, y) := by
  induction txs with
  | nil => rfl
  | cons t ts ih =>
      show readMany _ (ts.length + 1) _ = _
      unfold readMany
      rw [show (List.map lenPref (t :: ts)).flatten ++ y =
          lenPref t ++ ((List.map lenPref ts).flatten ++ y) from by
        simp [List.flatten]]
      rw [readLP_exact _ (h t (by simp))]
      simp only [obind_some]
      rw [ih (fun u hu => h u (by simp [hu]))]
      rfl

theorem map_i16_u32 (fs : List Int) (h : ∀ f ∈ fs, -(2 ^ 15) ≤ f ∧ f < 2 ^ 15) :
    (fs.map u32OfI16).map i16OfU16 = fs := by
  induction fs with
  | nil => rfl
  | cons f fs ih =>
      have hf := h f (by simp)
      simp only [List.map_cons, i16OfU16_u32OfI16 hf.1 hf.2]
      rw [ih (fun g hg => h g (by simp [hg]))]

/-- Decoding the modelled challenged-header encoding recovers the
challenged header. -/
theorem pbDecodeCH_exact (ch : ChallengedHeader) (y : Bytes) (h : wfCH ch = true) :
    pbDecodeCH (pbEncodeCH ch.ToProtobuf ++ y) = some (ch, y) := by
  obtain ⟨ts, ⟨bt, gs⟩, fe, gen, rv, sh, hsig⟩ := ch
  simp only [wfCH, Bool.and_eq_true, decide_eq_true_eq, List.all_eq_true] at h
  obtain ⟨⟨⟨⟨⟨⟨⟨⟨⟨hts, hbt⟩, hrvlo⟩, hrvhi⟩, hfe⟩, hflen⟩, hgs⟩, hgen⟩, hsh⟩, hhs⟩ := h
  have hfeat : ∀ f ∈ fe, -(2 ^ 15) ≤ f ∧ f < 2 ^ 15 := by
    intro f hf
    have := hfe f hf
    simpa using this
  have henc : pbEncodeCH (ChallengedHeader.ToProtobuf ⟨ts, ⟨bt, gs⟩, fe, gen, rv, sh, hsig⟩)
      ++ y =
      beBytes 8 bt ++ (lenPref gs ++ (beBytes 4 (int16SliceToUint32 fe).length ++
        (((int16SliceToUint32 fe).map (beBytes 4)).flatten ++ (beBytes 8 ts ++
          (lenPref gen ++ (beBytes 8 (u64OfI64 rv) ++ (lenPref sh ++
            (lenPref hsig ++ y)))))))) := by
    simp [pbEncodeCH, ChallengedHeader.ToProtobuf, List.append_assoc]
  have hvlen : (int16SliceToUint32 fe).length = fe.length := by
    simp [int16SliceToUint32]
  unfold pbDecodeCH
  rw [henc]
  rw [readNat_exact _ (by rw [pow256_8]; omega)]
  simp only [obind_some]
  rw [readLP_exact _ (by omega)]
  simp only [obind_some]
  rw [show beBytes 4 (int16SliceToUint32 fe).length = beBytes 4 fe.length from by
    rw [hvlen]]
  rw [readNat_exact _ (by rw [pow256_4]; omega)]
  simp only [obind_some]
  rw [show fe.length = (int16SliceToUint32 fe).length from hvlen.symm]
  rw [readMany_nat_exact _ _ (by
    intro v hv
    simp only [int16SliceToUint32, List.mem_map] at hv
    obtain ⟨f, _, hf⟩ := hv
    exact hf ▸ u32OfI16_lt f)]
  simp only [obind_some]
  rw [readNat_exact _ (by rw [pow256_8]; omega)]
  simp only [obind_some]
  rw [readLP_exact _ (by omega)]
  simp only [obind_some]
  rw [readNat_exact _ (by rw [pow256_8]; exact u64OfI64_lt rv)]
  simp only [obind_some]
  rw [readLP_exact _ (by omega)]
  simp only [obind_some]
  rw [readLP_exact _ (by omega)]
  simp only [obind_some]
  simp [int16SliceToUint32, map_i16_u32 fe hfeat,
    i64OfU64_u64OfI64 hrvlo hrvhi]

/-- The bytes of a wellformed BlockID fit the uint32 length prefix. -/
theorem wfb_bytes_lt {id : BlockID} (h : id.wfb = true) :
    id.bytes.length < 2 ^ 32 := by
  obtain ⟨sg, dg, t⟩ := id
  cases t <;>
    simp only [BlockID.wfb, Bool.and_eq_true, beq_iff_eq] at h
  case undefined => exact absurd h (by simp)
  case signatureID =>
      obtain ⟨h1, _⟩ := h
      simp [BlockID.bytes, h1]
  case digestID =>
      obtain ⟨h1, _⟩ := h
      simp [BlockID.bytes, h1]

/-- The optional challenged-header conversion is an Option.map. -/
theorem chOpt_map (o : Option ChallengedHeader) :
    (match o with
      | some ch => some ch.ToProtobuf
      | none => none) = o.map ChallengedHeader.ToProtobuf := by
  cases o <;> rfl

/-- Decoding the modelled optional challenged-header encoding recovers the
optional challenged header. -/
theorem pbDecodeChOpt_exact (och : Option ChallengedHeader) (y : Bytes)
    (h : ∀ ch ∈ och, wfCH ch = true) :
    pbDecodeChOpt (pbEncodeChOpt (och.map ChallengedHeader.ToProtobuf) ++ y) =
      some (och, y) := by
  cases och with
  | none =>
      show pbDecodeChOpt ([0] ++ y) = some (none, y)
      unfold pbDecodeChOpt
      rw [readN_exact y (show ([0] : Bytes).length = 1 from rfl)]
      rfl
  | some ch =>
      have hch := h ch (by simp)
      show pbDecodeChOpt (([1] ++ pbEncodeCH ch.ToProtobuf) ++ y) =
        some (some ch, y)
      rw [List.append_assoc]
      unfold pbDecodeChOpt
      rw [readN_exact _ (show ([1] : Bytes).length = 1 from rfl)]
      simp only [obind_some]
      show obind (pbDecodeCH (pbEncodeCH ch.ToProtobuf ++ y))
        (fun c => some (some c.1, c.2)) = some (some ch, y)
      rw [pbDecodeCH_exact ch y hch]
      rfl

/-- Decoding the modelled protobuf header encoding recovers the header: all
encoded fields come back, the binary-only length fields decode to zero, the
signature and the count are left to the enclosing block decoder. -/
theorem pbDecodeHeader_exact (scheme : Scheme) (h : BlockHeader) (y : Bytes)
    (hs : scheme < 256)
    (hver : h.Version < 256)
    (hts : h.Timestamp < 2 ^ 64) (hbt : h.nxt.BaseTarget < 2 ^ 64)
    (hrvlo : -(2 ^ 63) ≤ h.RewardVote) (hrvhi : h.RewardVote < 2 ^ 63)
    (hfeat : ∀ f ∈ h.Features, -(2 ^ 15) ≤ f ∧ f < 2 ^ 15)
    (hflen : h.Features.length < 2 ^ 32)
    (hparent : h.Parent.wfb = true)
    (hgs : h.nxt.GenSignature.length < 2 ^ 32)
    (hpk : h.GeneratorPublicKey.length < 2 ^ 32)
    (hrt : h.TransactionsRoot.length < 2 ^ 32)
    (hsh1 : (h.GetStateHash).1.length < 2 ^ 32)
    (hsh2 : (if (h.GetStateHash).1 = [] then none else some (h.GetStateHash).1) =
      h.stateHash)
    (hch : ∀ ch ∈ h.challengedHeader, wfCH ch = true) :
    pbDecodeHeader (pbEncodeHeader (h.HeaderToProtobufHeader scheme) ++ y) =
      some ((scheme,
        { Version := h.Version, Timestamp := h.Timestamp, Parent := h.Parent,
          FeaturesCount := h.Features.length, Features := h.Features,
          RewardVote := h.RewardVote, ConsensusBlockLength := 0,
          nxt := h.nxt, TransactionBlockLength := 0, TransactionCount := 0,
          GeneratorPublicKey := h.GeneratorPublicKey,
          BlockSignature := zeroSignature,
          TransactionsRoot := h.TransactionsRoot, stateHash := h.stateHash,
          challengedHeader := h.challengedHeader, ID := BlockID.zero }), y) := by
  have hvlen : (int16SliceToUint32 h.Features).length = h.Features.length := by
    simp [int16SliceToUint32]
  have henc : pbEncodeHeader (h.HeaderToProtobufHeader scheme) ++ y =
      beBytes 4 scheme ++ (lenPref h.Parent.bytes ++ (beBytes 8 h.nxt.BaseTarget ++
        (lenPref h.nxt.GenSignature ++ (beBytes 4 (int16SliceToUint32 h.Features).length ++
          (((int16SliceToUint32 h.Features).map (beBytes 4)).flatten ++
            (beBytes 8 h.Timestamp ++ (beBytes 4 h.Version ++
              (lenPref h.GeneratorPublicKey ++ (beBytes 8 (u64OfI64 h.RewardVote) ++
                (lenPref h.TransactionsRoot ++ (lenPref (h.GetStateHash).1 ++
                  (pbEncodeChOpt
                    (h.challengedHeader.map ChallengedHeader.ToProtobuf) ++
                      y)))))))))))) := by
    simp [pbEncodeHeader, BlockHeader.HeaderToProtobufHeader, chOpt_map,
      List.append_assoc]
  have hs32 : scheme < 2 ^ 32 := Nat.lt_of_lt_of_le hs (by norm_num)
  unfold pbDecodeHeader
  rw [henc]
  rw [readNat_exact _ (by rw [pow256_4]; exact hs32)]
  simp only [obind_some]
  rw [readLP_exact _ (wfb_bytes_lt hparent)]
  simp only [obind_some]
  rw [readNat_exact _ (by rw [pow256_8]; omega)]
  simp only [obind_some]
  rw [readLP_exact _ hgs]
  simp only [obind_some]
  rw [show beBytes 4 (int16SliceToUint32 h.Features).length =
      beBytes 4 h.Features.length from by rw [hvlen]]
  rw [readNat_exact _ (by rw [pow256_4]; omega)]
  simp only [obind_some]
  rw [show h.Features.length = (int16SliceToUint32 h.Features).length from hvlen.symm]
  rw [readMany_nat_exact _ _ (by
    intro v hv
    simp only [int16SliceToUint32, List.mem_map] at hv
    obtain ⟨f, _, hf⟩ := hv
    exact hf ▸ u32OfI16_lt f)]
  simp only [obind_some]
  rw [readNat_exact _ (by rw [pow256_8]; omega)]
  simp only [obind_some]
  rw [readNat_exact _ (by rw [pow256_4]; omega)]
  simp only [obind_some]
  rw [readLP_exact _ hpk]
  simp only [obind_some]
  rw [readNat_exact _ (by rw [pow256_8]; exact u64OfI64_lt h.RewardVote)]
  simp only [obind_some]
  rw [readLP_exact _ hrt]
  simp only [obind_some]
  rw [readLP_exact _ hsh1]
  simp only [obind_some]
  rw [pbDecodeChOpt_exact h.challengedHeader y hch]
  simp only [obind_some]
  simp [newBlockIDFromBytes_bytes hparent, int16SliceToUint32,
    map_i16_u32 h.Features hfeat, i64OfU64_u64OfI64 hrvlo hrvhi,
    Nat.mod_eq_of_lt hs, Nat.mod_eq_of_lt hver, hsh2]

/-- Round trip of the protobuf codec for versions at or above Protobuf:
marshal then unmarshal restores every field, the derived ID regenerated as
the digest of the hashed header-without-signature bytes. -/
theorem pb_roundtrip (fastHash : Bytes → Bytes) (scheme : Scheme) (b : Block)
    (hs : scheme < 256)
    (hv : ProtobufBlockVersion ≤ b.header.Version) (hver : b.header.Version < 256)
    (hts : b.header.Timestamp < 2 ^ 64) (hbt : b.header.nxt.BaseTarget < 2 ^ 64)
    (hrvlo : -(2 ^ 63) ≤ b.header.RewardVote) (hrvhi : b.header.RewardVote < 2 ^ 63)
    (hfeat : ∀ f ∈ b.header.Features, -(2 ^ 15) ≤ f ∧ f < 2 ^ 15)
    (hfc : b.header.FeaturesCount = b.header.Features.length)
    (hflen : b.header.Features.length < 2 ^ 32)
    (hparent : b.header.Parent.wfb = true)
    (hgs : b.header.nxt.GenSignature.length < 2 ^ 32)
    (hpk : b.header.GeneratorPublicKey.length = 32)
    (hsg : b.header.BlockSignature.length = 64)
    (hrt : b.header.TransactionsRoot.length < 2 ^ 32)
    (hshOK : ∀ s ∈ b.header.stateHash, s.length = 32)
    (hch : ∀ ch ∈ b.header.challengedHeader, wfCH ch = true)
    (htc : b.header.TransactionCount = b.Transactions.length)
    (hcbl0 : b.header.ConsensusBlockLength = 0)
    (htbl0 : b.header.TransactionBlockLength = 0)
    (hsize : transactionsBinarySize b.Transactions +
      2 * b.header.Features.length + 250 < 2 ^ 32) :
    Block.UnmarshalFromProtobuf fastHash (b.MarshalToProtobuf scheme) =
      .ok (b.withID (NewBlockIDFromDigest
        (fastHash (b.header.MarshalHeaderToProtobufWithoutSignature scheme)))) := by
  have hsh1 : (b.header.GetStateHash).1.length < 2 ^ 32 := by
    cases hsho : b.header.stateHash with
    | none => simp [BlockHeader.GetStateHash, hsho]
    | some s =>
        have h32 := hshOK s (by simp [hsho])
        simp [BlockHeader.GetStateHash, hsho, h32]
  have hsh2 : (if (b.header.GetStateHash).1 = [] then none
      else some (b.header.GetStateHash).1) = b.header.stateHash := by
    cases hsho : b.header.stateHash with
    | none => simp [BlockHeader.GetStateHash, hsho]
    | some s =>
        have h32 := hshOK s (by simp [hsho])
        have hne : s ≠ [] := by
          intro e
          rw [e] at h32
          simp at h32
        simp [BlockHeader.GetStateHash, hsho, hne]
  have hcnt32 : b.Transactions.length < 2 ^ 32 := by
    have := transactionsBinarySize_ge b.Transactions
    omega
  have htxlen : ∀ t ∈ b.Transactions, t.length < 2 ^ 32 := by
    intro t ht
    have := mem_le_binarySize ht
    omega
  have hb : b.MarshalToProtobuf scheme =
      pbEncodeHeader (b.header.HeaderToProtobufHeader scheme) ++
        (lenPref b.header.BlockSignature ++ (beBytes 4 b.Transactions.length ++
          ((b.Transactions.map lenPref).flatten ++ []))) := by
    simp [Block.MarshalToProtobuf, pbEncodeBlock, List.append_assoc]
  have hv' : ¬ b.header.Version < ProtobufBlockVersion := Nat.not_lt.mpr hv
  unfold Block.UnmarshalFromProtobuf
  rw [hb]
  rw [pbDecodeHeader_exact scheme b.header _ hs hver hts hbt hrvlo hrvhi hfeat
    hflen hparent hgs (by omega) hrt hsh1 hsh2 hch]
  simp only [obind_some]
  rw [readLP_exact _ (by omega)]
  simp only [obind_some]
  rw [readNat_exact _ (by rw [pow256_4]; exact hcnt32)]
  simp only [obind_some]
  rw [readMany_lp_exact b.Transactions [] htxlen]
  simp only [obind_some]
  simp [Block.withID, BlockHeader.GenerateBlockID, BlockHeader.blockIDValue,
    BlockHeader.MarshalHeaderToProtobufWithoutSignature,
    BlockHeader.HeaderToProtobufHeader, BlockHeader.GetStateHash,
    hv', hfc, htc, hcbl0, htbl0]

/-- C2: for every scheme and every block whose fields form a valid
combination for its version, the version-dispatched marshal succeeds and
decoding its bytes — through the binary decoder below the Protobuf version,
through the protobuf decoder from it on — yields the original block in
every field except the derived ID, and the decoded ID independently equals
the ID GenerateBlockID assigns from the decoded content. -/
theorem block_roundtrip_spec (fastHash : Bytes → Bytes) (scheme : Scheme)
    (b : Block) (hs : scheme < 256) (hwf : wfBlock b = true) :
    ∃ bs, b.Marshal scheme = .ok bs ∧
      (b.header.Version < ProtobufBlockVersion →
        Block.UnmarshalBinary scheme bs =
          .ok (b.withID (b.header.blockIDValue fastHash scheme))) ∧
      (ProtobufBlockVersion ≤ b.header.Version →
        Block.UnmarshalFromProtobuf fastHash bs =
          .ok (b.withID (b.header.blockIDValue fastHash scheme))) ∧
      (b.withID (b.header.blockIDValue fastHash scheme)).header.ID =
        ((b.withID (b.header.blockIDValue fastHash scheme)).header.GenerateBlockID
          fastHash scheme).ID := by
  have hid : (b.withID (b.header.blockIDValue fastHash scheme)).header.ID =
      ((b.withID (b.header.blockIDValue fastHash scheme)).header.GenerateBlockID
        fastHash scheme).ID := by
    simp [Block.withID, BlockHeader.GenerateBlockID, BlockHeader.blockIDValue,
      BlockHeader.MarshalHeaderToProtobufWithoutSignature,
      BlockHeader.HeaderToProtobufHeader, BlockHeader.GetStateHash]
  simp only [wfBlock, Bool.and_eq_true, beq_iff_eq, decide_eq_true_eq,
    List.all_eq_true] at hwf
  obtain ⟨⟨⟨⟨⟨⟨⟨⟨⟨⟨⟨⟨⟨hts, hbt⟩, hrvlo⟩, hrvhi⟩, hfeat⟩, hfc⟩, hflen⟩, hcbl⟩,
    hpk⟩, hsg⟩, hparentW⟩, htc⟩, hsize⟩, hIF⟩ := hwf
  have hfeat' : ∀ f ∈ b.header.Features, -(2 ^ 15) ≤ f ∧ f < 2 ^ 15 := by
    intro f hf
    simpa using hfeat f hf
  by_cases hv : b.header.Version < ProtobufBlockVersion
  · rw [if_pos hv] at hIF
    simp only [Bool.and_eq_true, beq_iff_eq, decide_eq_true_eq] at hIF
    obtain ⟨⟨⟨⟨⟨⟨hv1, hparentT⟩, hgen⟩, hroot⟩, hshn⟩, hchn⟩, hIF2⟩ := hIF
    have hnotge : ¬ b.header.Version ≥ ProtobufBlockVersion := Nat.not_le.mpr hv
    have hidv : b.header.blockIDValue fastHash scheme =
        NewBlockIDFromSignature b.header.BlockSignature := by
      rw [BlockHeader.blockIDValue, if_pos hv]
    by_cases hng : b.header.Version < NgBlockVersion
    · rw [if_pos hng] at hIF2
      simp only [Bool.and_eq_true, beq_iff_eq, decide_eq_true_eq] at hIF2
      obtain ⟨⟨⟨htbl, hcnt⟩, hfe0⟩, hrvm1⟩ := hIF2
      have hv3 : b.header.Version < 3 := hng
      have hfc0 : b.header.FeaturesCount = 0 := by rw [hfc, hfe0]; rfl
      have hsize1 : transactionsBinarySize b.Transactions + 250 < 2 ^ 32 := by
        omega
      obtain ⟨bs, hmr, hum⟩ := binary_roundtrip_preNg scheme b hv1 hv3 hts hbt
        hcbl hpk hsg hparentW hparentT hgen hroot hshn hchn htc hcnt hfe0 hfc0
        hrvm1 htbl hsize1
      refine ⟨bs, ?_, fun _ => ?_, fun hge => absurd hge hnotge, hid⟩
      · rw [Block.Marshal, if_neg hnotge]
        exact hmr
      · rw [hidv]
        exact hum
    · rw [if_neg hng] at hIF2
      simp only [Bool.and_eq_true, beq_iff_eq, decide_eq_true_eq] at hIF2
      obtain ⟨htbl4, hIF2b⟩ := hIF2
      have hv3 : 3 ≤ b.header.Version := Nat.not_lt.mp hng
      have hv5 : b.header.Version < 5 := hv
      have hrv3 : b.header.Version < 4 → b.header.RewardVote = -1 := by
        intro h4
        have h4' : b.header.Version < RewardBlockVersion := h4
        rw [if_pos h4'] at hIF2b
        simpa using hIF2b
      obtain ⟨bs, hmr, hum⟩ := binary_roundtrip_ng scheme b hv3 hv5 hts hbt
        hcbl hpk hsg hparentW hparentT hgen hroot hshn hchn htc hfeat' hfc
        hrvlo hrvhi hrv3 htbl4 hsize
      refine ⟨bs, ?_, fun _ => ?_, fun hge => absurd hge hnotge, hid⟩
      · rw [Block.Marshal, if_neg hnotge]
        exact hmr
      · rw [hidv]
        exact hum
  · rw [if_neg hv] at hIF
    simp only [Bool.and_eq_true, beq_iff_eq, decide_eq_true_eq] at hIF
    obtain ⟨⟨⟨⟨⟨⟨hver, htbl0⟩, hcbl0⟩, hgs32⟩, hrt32⟩, hshm⟩, hchm⟩ := hIF
    have hvge : ProtobufBlockVersion ≤ b.header.Version := Nat.not_lt.mp hv
    have hshOK : ∀ s ∈ b.header.stateHash, s.length = 32 := by
      intro s hsm
      rw [Option.mem_def] at hsm
      rw [hsm] at hshm
      simpa using hshm
    have hchOK : ∀ ch ∈ b.header.challengedHeader, wfCH ch = true := by
      intro ch hcm
      rw [Option.mem_def] at hcm
      rw [hcm] at hchm
      simpa using hchm
    have hidv : b.header.blockIDValue fastHash scheme =
        NewBlockIDFromDigest
          (fastHash (b.header.MarshalHeaderToProtobufWithoutSignature scheme)) := by
      rw [BlockHeader.blockIDValue, if_neg hv]
    have hum := pb_roundtrip fastHash scheme b hs hvge hver hts hbt hrvlo hrvhi
      hfeat' hfc hflen hparentW hgs32 hpk hsg hrt32 hshOK hchOK htc hcbl0
      htbl0 hsize
    refine ⟨b.MarshalToProtobuf scheme, ?_, fun hlt => absurd hlt hv,
      fun _ => ?_, hid⟩
    · rw [Block.Marshal, if_pos hvge]
    · rw [hidv]
      exact hum

/-- C2 witness: the round trip evaluated on the sample Plain-version block
at scheme 87. -/
theorem block_roundtrip_spec_witness :
    ∃ bs, sampleBlock2.Marshal 87 = .ok bs ∧
      (sampleBlock2.header.Version < ProtobufBlockVersion →
        Block.UnmarshalBinary 87 bs =
          .ok (sampleBlock2.withID
            (sampleBlock2.header.blockIDValue sampleHash 87))) ∧
      (ProtobufBlockVersion ≤ sampleBlock2.header.Version →
        Block.UnmarshalFromProtobuf sampleHash bs =
          .ok (sampleBlock2.withID
            (sampleBlock2.header.blockIDValue sampleHash 87))) ∧
      (sampleBlock2.withID
          (sampleBlock2.header.blockIDValue sampleHash 87)).header.ID =
        ((sampleBlock2.withID
            (sampleBlock2.header.blockIDValue sampleHash 87)).header.GenerateBlockID
          sampleHash 87).ID :=
  block_roundtrip_spec sampleHash 87 sampleBlock2 (by decide) (by decide)

end Gowaves
